import Mathlib

/-!
Verification of the input/output translation layer of the HoudiniEngineForUnreal-v2
plugin, as implemented in
Source/HoudiniEngine/Private/HoudiniInputTranslator.cpp and
Source/HoudiniEngineEditor/Private/HoudiniOutputDetails.cpp.

The embedding models the plugin-side state (inputs, input objects, node ids and
bookkeeping flags) directly from the source.  Calls into the two proprietary
hosts (the HAPI C API of the procedural engine and the Unreal editor runtime)
are modelled by an explicit session state (node table plus event logs) together
with an oracle structure HapiEnv that supplies the outcome of each external
call; the plugin code itself is translated statement by statement.
-/

namespace HoudiniEngine

/-- EHoudiniInputType (HoudiniInput.h), as used by HoudiniInputTranslator.cpp. -/
inductive EHoudiniInputType
  | Invalid
  | Geometry
  | Curve
  | Asset
  | Landscape
  | World
  | Skeletal
deriving DecidableEq, Repr

/-- EHoudiniInputObjectType (HoudiniInputObject.h), the discriminator stored in
UHoudiniInputObject::Type and switched on by the translator. -/
inductive EHoudiniInputObjectType
  | Invalid
  | Object
  | StaticMesh
  | SkeletalMesh
  | SceneComponent
  | StaticMeshComponent
  | InstancedStaticMeshComponent
  | SplineComponent
  | HoudiniSplineComponent
  | HoudiniAssetComponent
  | HoudiniAssetActor
  | Actor
  | Landscape
  | Brush
  | CameraComponent
  | DataTable
  | FoliageType_InstancedStaticMesh
deriving DecidableEq, Repr

/-- EHoudiniOutputType (HoudiniOutput.h), switched on by
FHoudiniOutputDetails::CreateWidget. -/
inductive EHoudiniOutputType
  | Invalid
  | Mesh
  | Instancer
  | Landscape
  | Curve
  | Skeletal
deriving DecidableEq, Repr

/-- EHoudiniParameterType: only the Input alternative matters to
FHoudiniInputTranslator::BuildAllInputs; the other alternatives of the source
enum are represented so that filtering on the type is meaningful. -/
inductive EHoudiniParameterType
  | Invalid
  | Button
  | Color
  | File
  | Float
  | FloatRamp
  | Folder
  | FolderList
  | Input
  | Int
  | IntChoice
  | Label
  | MultiParm
  | Separator
  | String
  | StringChoice
  | Toggle
deriving DecidableEq, Repr

/- ### C8: default input type inferred from the label
   FHoudiniInputTranslator::GetDefaultInputTypeFromLabel
   (HoudiniInputTranslator.cpp lines 482-519). -/

/-- Substring containment on character lists (helper for FString::Contains). -/
def charsContain (pat : List Char) : List Char → Bool
  | [] => pat.isEmpty
  | c :: rest => pat.isPrefixOf (c :: rest) || charsContain pat rest

/-- Lower-casing of a string as a character list (helper for the
case-insensitive FString::Contains). -/
def lowerChars (s : String) : List Char :=
  s.data.map Char.toLower

/-- FString::Contains with ESearchCase::IgnoreCase: case-insensitive substring
containment. -/
def fstringContainsCI (s pat : String) : Bool :=
  charsContain (lowerChars pat) (lowerChars s)

/-- FHoudiniInputTranslator::GetDefaultInputTypeFromLabel: the default input
type is chosen from magic words found in the input label, with Geometry as the
fallback (lines 482-519). -/
def GetDefaultInputTypeFromLabel (inputName : String) : EHoudiniInputType :=
  -- By default, geometry input is chosen; the else-if chain below mirrors the
  -- sequence of Contains checks of the source.
  if fstringContainsCI inputName "curve" then
    EHoudiniInputType.Curve
  else if fstringContainsCI inputName "landscape"
      || fstringContainsCI inputName "terrain"
      || fstringContainsCI inputName "heightfield" then
    EHoudiniInputType.Landscape
  else if fstringContainsCI inputName "world"
      || fstringContainsCI inputName "outliner" then
    EHoudiniInputType.World
  else if fstringContainsCI inputName "asset"
      || fstringContainsCI inputName "hda" then
    EHoudiniInputType.Asset
  else
    EHoudiniInputType.Geometry

/-- C8: GetDefaultInputTypeFromLabel is a total deterministic function of the
label with the fixed precedence curve, then landscape/terrain/heightfield, then
world/outliner, then asset/hda, defaulting to Geometry, all matches being
case-insensitive substring containment. -/
theorem C8_default_input_type_precedence (name : String) :
    (fstringContainsCI name "curve" = true →
      GetDefaultInputTypeFromLabel name = EHoudiniInputType.Curve)
    ∧ (fstringContainsCI name "curve" = false →
        (fstringContainsCI name "landscape" = true
          ∨ fstringContainsCI name "terrain" = true
          ∨ fstringContainsCI name "heightfield" = true) →
      GetDefaultInputTypeFromLabel name = EHoudiniInputType.Landscape)
    ∧ (fstringContainsCI name "curve" = false →
        fstringContainsCI name "landscape" = false →
        fstringContainsCI name "terrain" = false →
        fstringContainsCI name "heightfield" = false →
        (fstringContainsCI name "world" = true
          ∨ fstringContainsCI name "outliner" = true) →
      GetDefaultInputTypeFromLabel name = EHoudiniInputType.World)
    ∧ (fstringContainsCI name "curve" = false →
        fstringContainsCI name "landscape" = false →
        fstringContainsCI name "terrain" = false →
        fstringContainsCI name "heightfield" = false →
        fstringContainsCI name "world" = false →
        fstringContainsCI name "outliner" = false →
        (fstringContainsCI name "asset" = true
          ∨ fstringContainsCI name "hda" = true) →
      GetDefaultInputTypeFromLabel name = EHoudiniInputType.Asset)
    ∧ (fstringContainsCI name "curve" = false →
        fstringContainsCI name "landscape" = false →
        fstringContainsCI name "terrain" = false →
        fstringContainsCI name "heightfield" = false →
        fstringContainsCI name "world" = false →
        fstringContainsCI name "outliner" = false →
        fstringContainsCI name "asset" = false →
        fstringContainsCI name "hda" = false →
      GetDefaultInputTypeFromLabel name = EHoudiniInputType.Geometry) := by
  unfold GetDefaultInputTypeFromLabel
  refine ⟨?_, ?_, ?_, ?_, ?_⟩
  · intro h1
    simp [h1]
  · intro h1 h2
    rcases h2 with h | h | h <;> simp [h1, h]
  · intro h1 h2 h3 h4 h5
    rcases h5 with h | h <;> simp [h1, h2, h3, h4, h]
  · intro h1 h2 h3 h4 h5 h6 h7
    rcases h7 with h | h <;> simp [h1, h2, h3, h4, h5, h6, h]
  · intro h1 h2 h3 h4 h5 h6 h7 h8
    simp [h1, h2, h3, h4, h5, h6, h7, h8]

/-- Witness for C8: the label "Terrain Curve In" contains both curve and
terrain, and curve takes precedence; evaluated concretely. -/
theorem C8_default_input_type_precedence_witness :
    GetDefaultInputTypeFromLabel "Terrain Curve In" = EHoudiniInputType.Curve :=
  (C8_default_input_type_precedence "Terrain Curve In").1 (by decide)

/- ### C7: output detail-panel widget dispatch
   FHoudiniOutputDetails::CreateWidget (HoudiniOutputDetails.cpp lines 80-131). -/

/-- UHoudiniOutput, restricted to the fields read by CreateWidget.  A null
entry of the outputs array is modelled as none at the use site; IsValid(x)
is non-null together with not pending kill. -/
structure UHoudiniOutput where
  pendingKill : Bool
  bIsEditableNode : Bool
  OutputType : EHoudiniOutputType
deriving DecidableEq, Repr

/-- The detail-panel widget families CreateWidget can build. -/
inductive OutputWidgetKind
  | MeshWidget
  | LandscapeWidget
  | InstancerWidget
  | CurveWidget
  | DefaultWidget
deriving DecidableEq, Repr

/-- FHoudiniOutputDetails::CreateWidget (lines 80-131): returns the widget
family created for the given outputs array, or none when no widget is
created. -/
def CreateWidget (inOutputs : List (Option UHoudiniOutput)) : Option OutputWidgetKind :=
  match inOutputs.head? with
  | none => none            -- InOutputs.Num() <= 0
  | some mainOutput =>
    match mainOutput with
    | none => none          -- !IsValid(MainOutput): null
    | some m =>
      if m.pendingKill then none   -- !IsValid(MainOutput): pending kill
      -- Do not create UI for editable curve
      else if m.bIsEditableNode && m.OutputType == EHoudiniOutputType.Curve then none
      else
        some (match m.OutputType with
          | EHoudiniOutputType.Mesh => OutputWidgetKind.MeshWidget
          | EHoudiniOutputType.Landscape => OutputWidgetKind.LandscapeWidget
          | EHoudiniOutputType.Instancer => OutputWidgetKind.InstancerWidget
          | EHoudiniOutputType.Curve => OutputWidgetKind.CurveWidget
          | _ => OutputWidgetKind.DefaultWidget)

/-- C7: CreateWidget creates nothing for an empty array, a null or pending-kill
first output, or an editable curve output; otherwise it creates the widget
selected by the first output's type, Skeletal and every other type falling back
to the default widget. -/
theorem C7_output_widget_dispatch (outs : List (Option UHoudiniOutput)) :
    (outs = [] → CreateWidget outs = none)
    ∧ (outs.head? = some none → CreateWidget outs = none)
    ∧ (∀ m, outs.head? = some (some m) →
        (m.pendingKill = true → CreateWidget outs = none)
        ∧ (m.pendingKill = false →
            m.bIsEditableNode = true → m.OutputType = EHoudiniOutputType.Curve →
            CreateWidget outs = none)
        ∧ (m.pendingKill = false → m.OutputType = EHoudiniOutputType.Mesh →
            CreateWidget outs = some OutputWidgetKind.MeshWidget)
        ∧ (m.pendingKill = false → m.OutputType = EHoudiniOutputType.Landscape →
            CreateWidget outs = some OutputWidgetKind.LandscapeWidget)
        ∧ (m.pendingKill = false → m.OutputType = EHoudiniOutputType.Instancer →
            CreateWidget outs = some OutputWidgetKind.InstancerWidget)
        ∧ (m.pendingKill = false → m.bIsEditableNode = false →
            m.OutputType = EHoudiniOutputType.Curve →
            CreateWidget outs = some OutputWidgetKind.CurveWidget)
        ∧ (m.pendingKill = false →
            (m.OutputType = EHoudiniOutputType.Skeletal
              ∨ m.OutputType = EHoudiniOutputType.Invalid) →
            CreateWidget outs = some OutputWidgetKind.DefaultWidget)) := by
  refine ⟨?_, ?_, ?_⟩
  · intro h
    subst h
    rfl
  · intro h
    unfold CreateWidget
    rw [h]
  · intro m hm
    unfold CreateWidget
    rw [hm]
    refine ⟨?_, ?_, ?_, ?_, ?_, ?_, ?_⟩
    · intro hk
      simp [hk]
    · intro hk he ht
      simp [hk, he, ht]
    · intro hk ht
      simp [hk, ht]
    · intro hk ht
      simp [hk, ht]
    · intro hk ht
      simp [hk, ht]
    · intro hk he ht
      simp [hk, he, ht]
    · intro hk ht
      rcases ht with h | h <;> simp [hk, h]

/-- Witness for C7: a valid, non-editable Mesh output yields the mesh widget. -/
theorem C7_output_widget_dispatch_witness :
    CreateWidget [some ⟨false, false, EHoudiniOutputType.Mesh⟩]
      = some OutputWidgetKind.MeshWidget :=
  ((C7_output_widget_dispatch [some ⟨false, false, EHoudiniOutputType.Mesh⟩]).2.2
    ⟨false, false, EHoudiniOutputType.Mesh⟩ rfl).2.2.1 rfl rfl

/- ### Data model: input objects, inputs, session state and the HAPI oracle -/

/-- The claims under verification depend only on transform-changed flags, never
on actual transform values, so the FTransform payload is modelled as the
one-valued type. -/
abbrev FTransform := Unit

/-- UHoudiniInputSceneComponent and its derived classes
(UHoudiniInputMeshComponent, UHoudiniInputInstancedMeshComponent,
UHoudiniInputSplineComponent, UHoudiniInputHoudiniSplineComponent,
UHoudiniInputCameraComponent), the element type of
UHoudiniInputActor::GetActorComponents.

Modelled from the spec: the UHoudiniInputObject class hierarchy lives in
HoudiniInputObject.h, which is not part of this repository snapshot; per the
spec's description of node lifecycle tracking, its flag accessors (HasChanged,
MarkChanged, HasTransformChanged, MarkTransformChanged,
SetNeedsToTriggerUpdate) are modelled as plain reads/writes of the
corresponding fields, and objType mirrors the C++ field Type whose value
identifies the concrete derived class. -/
structure UHoudiniInputSceneComponent where
  objType : EHoudiniInputObjectType
  InputNodeId : Int
  InputObjectNodeId : Int
  bHasChanged : Bool
  bTransformChanged : Bool
  bNeedsToTriggerUpdate : Bool
  pendingKill : Bool
  /-- GetSceneComponent() / GetStaticMeshComponent() is non-null and alive. -/
  hasSceneComponent : Bool
deriving DecidableEq, Repr

/-- UHoudiniInputObject and its derived classes, as stored in the per-type
input object arrays of a UHoudiniInput.  Same modelling notes as for
UHoudiniInputSceneComponent; objType mirrors the C++ field Type. -/
structure UHoudiniInputObject where
  objType : EHoudiniInputObjectType
  InputNodeId : Int
  InputObjectNodeId : Int
  bHasChanged : Bool
  bTransformChanged : Bool
  bNeedsToTriggerUpdate : Bool
  pendingKill : Bool
  /-- The wrapped engine object (GetObject / GetActor / GetLandscapeProxy ...)
  is non-null and alive. -/
  hasObject : Bool
  /-- For Actor objects: the wrapped actor satisfies IsA AHoudiniAssetActor. -/
  actorIsHoudiniAssetActor : Bool
  /-- UHoudiniInputStaticMesh::bIsBlueprint(). -/
  bIsBlueprint : Bool
  /-- InputObjectNodeId of each entry of
  UHoudiniInputStaticMesh::BlueprintStaticMeshes. -/
  BlueprintStaticMeshes : List Int
  /-- UHoudiniInputActor::GetActorComponents(); entries may be null. -/
  ActorComponents : List (Option UHoudiniInputSceneComponent)
  /-- For HoudiniSplineComponent objects: the node id held by
  GetCurveComponent(), none when that spline component is null or pending
  kill. -/
  curveComponentNodeId : Option Int
deriving DecidableEq, Repr

/-- The per-input-type object arrays of a UHoudiniInput (GeometryInputObjects,
CurveInputObjects, AssetInputObjects, LandscapeInputObjects,
WorldInputObjects, SkeletalInputObjects). -/
structure InputObjectArrays where
  geometry : List (Option UHoudiniInputObject)
  curve : List (Option UHoudiniInputObject)
  asset : List (Option UHoudiniInputObject)
  landscape : List (Option UHoudiniInputObject)
  world : List (Option UHoudiniInputObject)
  skeletal : List (Option UHoudiniInputObject)
deriving DecidableEq, Repr

/-- UHoudiniInput, restricted to the state read and written by
HoudiniInputTranslator.cpp.

Modelled from the spec: UHoudiniInput is declared in HoudiniInput.h, which is
not part of this repository snapshot.  Its accessors are modelled as plain
field reads/writes (GetInputNodeId/SetInputNodeId, GetAssetNodeId,
GetParameterId, IsObjectPathParameter, HasChanged/MarkChanged,
NeedsToTriggerUpdate/SetNeedsToTriggerUpdate, IsDataUploadNeeded /
MarkDataUploadNeeded, IsTransformUploadNeeded, CanDeleteHoudiniNodes,
GetCreatedDataNodeIds — the latter returning the member list itself, as
required by the reference bindings taken of it at lines 1078 and 1028 of the
translator). -/
structure UHoudiniInput where
  Name : String
  Label : String
  Help : String
  InputType : EHoudiniInputType
  PreviousInputType : EHoudiniInputType
  AssetNodeId : Int
  InputNodeId : Int
  /-- SOP input index (SetSOPInput). -/
  InputIndex : Int
  /-- Object-path parameter id (SetObjectPathParameter). -/
  ParmId : Int
  bIsObjectPathParameter : Bool
  pendingKill : Bool
  bCanDeleteHoudiniNodes : Bool
  bHasChanged : Bool
  bNeedsToTriggerUpdate : Bool
  bDataUploadNeeded : Bool
  bTransformUploadNeeded : Bool
  bLandscapeExportTypeChanged : Bool
  CreatedDataNodeIds : List Int
  objectArrays : InputObjectArrays
deriving DecidableEq, Repr

/-- Modelled from the spec: UHoudiniInput::GetHoudiniInputObjectArray returns
the object array of the requested input type, null for the Invalid type. -/
def GetHoudiniInputObjectArray (i : UHoudiniInput) :
    EHoudiniInputType → Option (List (Option UHoudiniInputObject))
  | EHoudiniInputType.Invalid => none
  | EHoudiniInputType.Geometry => some i.objectArrays.geometry
  | EHoudiniInputType.Curve => some i.objectArrays.curve
  | EHoudiniInputType.Asset => some i.objectArrays.asset
  | EHoudiniInputType.Landscape => some i.objectArrays.landscape
  | EHoudiniInputType.World => some i.objectArrays.world
  | EHoudiniInputType.Skeletal => some i.objectArrays.skeletal

/-- Writing back the object array of the requested input type (via the pointer
returned by GetHoudiniInputObjectArray, object updates are in place in the
source). -/
def setHoudiniInputObjectArray (i : UHoudiniInput) (t : EHoudiniInputType)
    (objs : List (Option UHoudiniInputObject)) : UHoudiniInput :=
  match t with
  | EHoudiniInputType.Invalid => i
  | EHoudiniInputType.Geometry => { i with objectArrays.geometry := objs }
  | EHoudiniInputType.Curve => { i with objectArrays.curve := objs }
  | EHoudiniInputType.Asset => { i with objectArrays.asset := objs }
  | EHoudiniInputType.Landscape => { i with objectArrays.landscape := objs }
  | EHoudiniInputType.World => { i with objectArrays.world := objs }
  | EHoudiniInputType.Skeletal => { i with objectArrays.skeletal := objs }

/-- Modelled from the spec: UHoudiniInput::HasInputTypeChanged reports whether
the input still records a pending type switch; SetPreviousInputType(Invalid)
clears it (translator lines 531-534 invalidate the previous type to mark the
switch as handled). -/
def UHoudiniInput.HasInputTypeChanged (i : UHoudiniInput) : Bool :=
  i.PreviousInputType ≠ EHoudiniInputType.Invalid
    && i.PreviousInputType ≠ i.InputType

/-- HAPI_AssetInfo, restricted to the field read by BuildAllInputs. -/
structure HAPI_AssetInfo where
  geoInputCount : Nat
deriving DecidableEq, Repr

/-- The session of the procedural engine: the set of live node ids, the
allocator for newly created nodes, and logs of the connection-shaping calls
(DisconnectNodeInput, ConnectNodeInput, SetParmStringValue with the empty
string, SetParmNodeValue). -/
structure Session where
  nodes : List Int
  nextNodeId : Int
  disconnectEvents : List (Int × Int)
  connectEvents : List (Int × Int × Int)
  clearedParmEvents : List (Int × Int)
  parmNodeValueEvents : List (Int × Int)
deriving DecidableEq, Repr

/-- FHoudiniApi::DeleteNode: the node id disappears from the session. -/
def Session.deleteNode (s : Session) (nodeId : Int) : Session :=
  { s with nodes := s.nodes.filter (fun n => n ≠ nodeId) }

/-- FHoudiniEngineUtils::IsHoudiniNodeValid: a nonnegative id naming a live
node of the session. -/
def Session.isNodeValid (s : Session) (nodeId : Int) : Bool :=
  decide (0 ≤ nodeId) && s.nodes.contains nodeId

/-- FHoudiniApi::DisconnectNodeInput(node, idx): logged, nodes untouched. -/
def Session.disconnectNodeInput (s : Session) (node idx : Int) : Session :=
  { s with disconnectEvents := s.disconnectEvents ++ [(node, idx)] }

/-- FHoudiniApi::ConnectNodeInput(node, idx, src, 0): logged, nodes
untouched. -/
def Session.connectNodeInput (s : Session) (node idx src : Int) : Session :=
  { s with connectEvents := s.connectEvents ++ [(node, idx, src)] }

/-- FHoudiniApi::SetParmStringValue(node, empty string, parm, 0): nulls an
object-path parameter; logged, nodes untouched. -/
def Session.setParmStringNull (s : Session) (node parm : Int) : Session :=
  { s with clearedParmEvents := s.clearedParmEvents ++ [(node, parm)] }

/-- FHoudiniApi::SetParmNodeValue(node, name, valueNode): logged, nodes
untouched. -/
def Session.setParmNodeValue (s : Session) (node valueNode : Int) : Session :=
  { s with parmNodeValueEvents := s.parmNodeValueEvents ++ [(node, valueNode)] }

/-- FHoudiniEngineUtils::CreateNode: allocates a fresh node id in the
session. -/
def Session.createNode (s : Session) : Int × Session :=
  (s.nextNodeId,
    { s with nodes := s.nodes ++ [s.nextNodeId], nextNodeId := s.nextNodeId + 1 })

/-- Names of the HapiCreateInputNodeFor* translators UploadHoudiniInputObject
dispatches to (HoudiniInputTranslator.cpp lines 1183-1394). -/
inductive TranslatorKind
  | ForObject
  | ForStaticMesh
  | ForSkeletalMesh
  | ForSceneComponent
  | ForStaticMeshComponent
  | ForInstancedStaticMeshComponent
  | ForSplineComponent
  | ForHoudiniSplineComponent
  | ForHoudiniAssetComponent
  | ForActor
  | ForLandscape
  | ForBrush
  | ForCamera
  | ForDataTable
  | ForFoliageType_InstancedStaticMesh
deriving DecidableEq, Repr

/-- Outcome of one HapiCreateInputNodeFor* translator on an input object: its
return value and the node ids it left in the object.  On the state the claims
mention, each translator only rewrites the object's InputNodeId /
InputObjectNodeId (and, for blueprint static meshes, the node ids of the
BlueprintStaticMeshes sub-objects); everything else it does lives in the
procedural engine session. -/
structure TranslateResult where
  success : Bool
  newInputNodeId : Int
  newInputObjectNodeId : Int
  newBlueprintStaticMeshes : List Int
deriving DecidableEq, Repr

/-- Outcome of a translator on an actor-contained component object. -/
structure CompTranslateResult where
  success : Bool
  newInputNodeId : Int
  newInputObjectNodeId : Int
deriving DecidableEq, Repr

/-- Oracle for every call crossing into the two proprietary hosts.  The
translator code is modelled statement by statement; whenever it consults HAPI
or the editor runtime, the outcome comes from this structure, universally
quantified in every theorem. -/
structure HapiEnv where
  /-- FHoudiniApi::GetAssetInfo: none models a failed call. -/
  getAssetInfoResult : Option HAPI_AssetInfo
  /-- FHoudiniApi::GetNodeInputName per geo input index; none models
  failure. -/
  getNodeInputName : Int → Option String
  /-- FHoudiniEngineUtils::CreateNode result code. -/
  createNodeOk : Bool
  /-- FHoudiniApi::ConnectNodeInput result code (ConnectInputNode). -/
  connectNodeInputOk : Bool
  /-- FHoudiniApi::SetParmNodeValue result code (ConnectInputNode). -/
  setParmNodeValueOk : Bool
  /-- FHoudiniApi::QueryNodeInput: the node id connected at the given input
  index of the given node, -1 when none. -/
  queryNodeInput : Int → Int → Int
  /-- FHoudiniEngineUtils::HapiGetParentNodeId. -/
  parentNodeId : Int → Int
  /-- IsGarbageCollecting() of the host engine. -/
  isGarbageCollecting : Bool
  /-- The HapiCreateInputNodeFor* translator bodies for array-level objects
  (lines 1631-3046): success and the node ids left in the object. -/
  translate : TranslatorKind → UHoudiniInputObject → TranslateResult
  /-- Same, for actor-contained component objects. -/
  translateComp : TranslatorKind → UHoudiniInputSceneComponent → CompTranslateResult
  /-- HapiCreateInputNodeForActor lines 2267-2313: for world inputs wrapping a
  Houdini asset actor, proxy-mesh refreshing may rebuild the recorded
  component list (InObject->Update). -/
  refreshActorComponents : List (Option UHoudiniInputSceneComponent) →
    List (Option UHoudiniInputSceneComponent)
  /-- FHoudiniApi::SetObjectTransform result per target node id. -/
  setObjectTransformOk : Int → Bool
  /-- FHoudiniApi::GetObjectTransform result per target node id. -/
  getObjectTransformOk : Int → Bool
  /-- UpdateTransformType (lines 746-816): only sets xformtype parameters in
  the session and never modifies the input, so it is abstracted to its
  success value. -/
  updateTransformTypeOk : UHoudiniInput → Bool
  /-- UpdatePackBeforeMerge (lines 819-869): same abstraction. -/
  updatePackBeforeMergeOk : UHoudiniInput → Bool
  /-- UpdateTransformOffset (lines 872-913): same abstraction. -/
  updateTransformOffsetOk : UHoudiniInput → Bool
  /-- SetDefaultAssetFromHDA (lines 548-674): reads parameter defaults and the
  world, and only calls SetInputObjectAt and SetInputType on the input, so its
  effect is abstracted to the new input type and object arrays. -/
  setDefaultAssetEffect : UHoudiniInput → EHoudiniInputType × InputObjectArrays
  /-- FHoudiniSplineTranslator::UpdateHoudiniInputCurves: rewrites curve input
  objects on the Unreal side. -/
  updateInputCurvesEffect : InputObjectArrays → InputObjectArrays
  /-- UpdateWorldInput (lines 2551-2661): per-world-input change detection,
  abstracted as a rewrite of the input. -/
  updateWorldInputEffect : UHoudiniInput → UHoudiniInput

/- ### DisconnectInput, DestroyInputNodes, DisconnectAndDestroyInput
   (HoudiniInputTranslator.cpp lines 303-479). -/

/-- FHoudiniInputTranslator::DisconnectInput (lines 303-348). -/
def DisconnectInput (inputToDestroy : Option UHoudiniInput)
    (inputType : EHoudiniInputType) (sess : Session) :
    Bool × Option UHoudiniInput × Session :=
  match inputToDestroy with
  | none => (false, none, sess)
  | some i =>
    if i.pendingKill then (false, some i, sess)
    else
      -- Start by disconnecting the input / nullifying the object path parameter
      let sess1 :=
        if i.bIsObjectPathParameter then
          sess.setParmStringNull i.AssetNodeId i.ParmId
        else if 0 ≤ i.AssetNodeId ∧ 0 ≤ i.InputNodeId then
          sess.disconnectNodeInput i.AssetNodeId i.InputIndex
        else sess
      if inputType = EHoudiniInputType.Asset then
        -- ClearDownstreamHoudiniAsset on the outer component is editor-side
        -- bookkeeping with no session effect; then reset the input's node id
        (true, some { i with InputNodeId := -1 }, sess1)
      else
        (true, some i, sess1)

/-- The rewrite DestroyInputNodes applies to one surviving (non-null, not
pending kill) input object of the processed array (lines 374-434). -/
def destroyObjUpdate (env : HapiEnv) (o : UHoudiniInputObject) : UHoudiniInputObject :=
  if o.objType = EHoudiniInputObjectType.HoudiniAssetComponent then
    -- the node itself is not deleted; only the recorded ids are reset
    { o with InputNodeId := -1, InputObjectNodeId := -1 }
  else
    -- For Actor input objects, set the input node id of all components to -1
    let comps1 :=
      if o.objType = EHoudiniInputObjectType.Actor then
        o.ActorComponents.map (fun c? =>
          match c? with
          | none => none
          | some c => if c.pendingKill then some c else some { c with InputNodeId := -1 })
      else o.ActorComponents
    let nid1 := if 0 ≤ o.InputNodeId then (-1 : Int) else o.InputNodeId
    let onid1 := if 0 ≤ o.InputObjectNodeId then (-1 : Int) else o.InputObjectNodeId
    -- Also directly invalidate the HoudiniSplineComponent node id
    let curveId1 :=
      if o.objType = EHoudiniInputObjectType.HoudiniSplineComponent
          && !env.isGarbageCollecting then
        o.curveComponentNodeId.map (fun _ => (-1 : Int))
      else o.curveComponentNodeId
    { o with ActorComponents := comps1, InputNodeId := nid1,
             InputObjectNodeId := onid1, curveComponentNodeId := curveId1,
             bHasChanged := true }

/-- The session effect of DestroyInputNodes on one surviving input object: the
object's nodes are deleted (lines 404-421).  Note the source recomputes the
parent from the InputObjectNodeId field after having reset it to -1, so the
parent lookup receives -1. -/
def destroyObjSession (env : HapiEnv) (o : UHoudiniInputObject) (sess : Session) : Session :=
  if o.objType = EHoudiniInputObjectType.HoudiniAssetComponent then sess
  else
    let sess1 := if 0 ≤ o.InputNodeId then sess.deleteNode o.InputNodeId else sess
    if 0 ≤ o.InputObjectNodeId then
      let sessA := sess1.deleteNode o.InputObjectNodeId
      let parentId := env.parentNodeId (-1)
      if sessA.isNodeValid parentId then sessA.deleteNode parentId else sessA
    else sess1

/-- The loop of DestroyInputNodes over the input object array (lines 367-436),
threading the local copy of the created-data id list (from which every
HoudiniAssetComponent object's InputNodeId is removed) and the session. -/
def destroyObjectsLoop (env : HapiEnv) :
    List (Option UHoudiniInputObject) → List Int → Session →
    List (Option UHoudiniInputObject) × List Int × Session
  | [], copyIds, sess => ([], copyIds, sess)
  | none :: rest, copyIds, sess =>
    let r := destroyObjectsLoop env rest copyIds sess
    (none :: r.1, r.2)
  | some o :: rest, copyIds, sess =>
    if o.pendingKill then
      let r := destroyObjectsLoop env rest copyIds sess
      (some o :: r.1, r.2)
    else
      let copy1 :=
        if o.objType = EHoudiniInputObjectType.HoudiniAssetComponent then
          -- TArray::Remove removes every occurrence of the value
          copyIds.filter (fun id => id ≠ o.InputNodeId)
        else copyIds
      let r := destroyObjectsLoop env rest copy1 (destroyObjSession env o sess)
      (some (destroyObjUpdate env o) :: r.1, r.2)

/-- The deletion loop of DestroyInputNodes over the local copy of the
created-data id list (lines 439-445): negative ids are skipped. -/
def deleteCreatedIds (sess : Session) : List Int → Session
  | [] => sess
  | id :: rest => deleteCreatedIds (if id < 0 then sess else sess.deleteNode id) rest

/-- FHoudiniInputTranslator::DestroyInputNodes (lines 350-467). -/
def DestroyInputNodes (env : HapiEnv) (inputToDestroy : Option UHoudiniInput)
    (inputType : EHoudiniInputType) (sess : Session) :
    Bool × Option UHoudiniInput × Session :=
  match inputToDestroy with
  | none => (false, none, sess)
  | some i =>
    if i.pendingKill then (false, some i, sess)
    else if !i.bCanDeleteHoudiniNodes then (false, some i, sess)
    -- an asset input is never destroyed: a simple disconnect is sufficient
    else if inputType = EHoudiniInputType.Asset then (true, some i, sess)
    else
      -- the source copies GetCreatedDataNodeIds() into a local array here
      let createdInputDataAssetIds := i.CreatedDataNodeIds
      let step1 :=
        match GetHoudiniInputObjectArray i inputType with
        | none => (i, createdInputDataAssetIds, sess)
        | some objs =>
          let r := destroyObjectsLoop env objs createdInputDataAssetIds sess
          (setHoudiniInputObjectArray i inputType r.1, r.2)
      let i1 := step1.1
      let sess2 := deleteCreatedIds step1.2.2 step1.2.1
      -- the source then empties the local copy, leaving the member list as is
      if 0 ≤ i1.InputNodeId then
        let parentId := env.parentNodeId i1.InputNodeId
        let sessA := sess2.deleteNode i1.InputNodeId
        let i2 := { i1 with InputNodeId := -1 }
        let sessB := if sessA.isNodeValid parentId then sessA.deleteNode parentId else sessA
        (true, some i2, sessB)
      else
        (true, some i1, sess2)

/-- FHoudiniInputTranslator::DisconnectAndDestroyInput (lines 469-479). -/
def DisconnectAndDestroyInput (env : HapiEnv) (inputToDestroy : Option UHoudiniInput)
    (inputType : EHoudiniInputType) (sess : Session) :
    Bool × Option UHoudiniInput × Session :=
  let d1 := DisconnectInput inputToDestroy inputType sess
  let d2 := DestroyInputNodes env d1.2.1 inputType d1.2.2
  (d1.1 && d2.1, d2.2)

/- ### Helper lemmas on the session and the destroy loop -/

theorem Session.deleteNode_nodes_mono {s : Session} {nodeId x : Int}
    (h : x ∈ (s.deleteNode nodeId).nodes) : x ∈ s.nodes := by
  simp only [Session.deleteNode, List.mem_filter] at h
  exact h.1

theorem Session.deleteNode_not_mem (s : Session) (nodeId : Int) :
    nodeId ∉ (s.deleteNode nodeId).nodes := by
  intro h
  simp [Session.deleteNode, List.mem_filter] at h

theorem deleteCreatedIds_nodes_mono :
    ∀ (l : List Int) (s : Session) (x : Int),
      x ∈ (deleteCreatedIds s l).nodes → x ∈ s.nodes
  | [], _, _, h => h
  | nodeId :: rest, s, x, h => by
    have h2 := deleteCreatedIds_nodes_mono rest _ x h
    by_cases hid : nodeId < 0
    · simpa [hid] using h2
    · exact Session.deleteNode_nodes_mono (by simpa [hid] using h2)

theorem deleteCreatedIds_not_mem :
    ∀ (l : List Int) (s : Session) (nodeId : Int),
      nodeId ∈ l → 0 ≤ nodeId → nodeId ∉ (deleteCreatedIds s l).nodes
  | [], _, _, hmem, _ => by cases hmem
  | a :: rest, s, nodeId, hmem, hpos => by
    rcases List.mem_cons.mp hmem with heq | htail
    · subst heq
      intro h
      have hlt : ¬nodeId < 0 := by omega
      rw [show deleteCreatedIds s (nodeId :: rest)
            = deleteCreatedIds (s.deleteNode nodeId) rest by simp [deleteCreatedIds, hlt]] at h
      exact Session.deleteNode_not_mem s nodeId (deleteCreatedIds_nodes_mono rest _ nodeId h)
    · intro h
      rw [show deleteCreatedIds s (a :: rest)
            = deleteCreatedIds (if a < 0 then s else s.deleteNode a) rest from rfl] at h
      exact deleteCreatedIds_not_mem rest _ nodeId htail hpos h

theorem destroyObjSession_nodes_mono (env : HapiEnv) (o : UHoudiniInputObject)
    {s : Session} {x : Int} (h : x ∈ (destroyObjSession env o s).nodes) : x ∈ s.nodes := by
  simp only [destroyObjSession] at h
  split_ifs at h
  all_goals repeat (replace h := Session.deleteNode_nodes_mono h)
  all_goals exact h

/-- The shape of one processed entry of the destroy loop. -/
def destroyObjMap (env : HapiEnv) :
    Option UHoudiniInputObject → Option UHoudiniInputObject
  | none => none
  | some o => if o.pendingKill then some o else some (destroyObjUpdate env o)

theorem destroyObjectsLoop_fst (env : HapiEnv) :
    ∀ (objs : List (Option UHoudiniInputObject)) (c : List Int) (s : Session),
      (destroyObjectsLoop env objs c s).1 = objs.map (destroyObjMap env)
  | [], _, _ => rfl
  | none :: rest, c, s => by
    simp [destroyObjectsLoop, destroyObjMap, destroyObjectsLoop_fst env rest c s]
  | some o :: rest, c, s => by
    by_cases hk : o.pendingKill
    · simp [destroyObjectsLoop, destroyObjMap, hk, destroyObjectsLoop_fst env rest c s]
    · simp [destroyObjectsLoop, destroyObjMap, hk, destroyObjectsLoop_fst env rest _ _]

theorem destroyObjectsLoop_copy_mem (env : HapiEnv) :
    ∀ (objs : List (Option UHoudiniInputObject)) (c : List Int) (s : Session)
      (nodeId : Int), nodeId ∈ c →
      (∀ o : UHoudiniInputObject, some o ∈ objs → o.pendingKill = false →
        o.objType = EHoudiniInputObjectType.HoudiniAssetComponent →
        o.InputNodeId ≠ nodeId) →
      nodeId ∈ (destroyObjectsLoop env objs c s).2.1
  | [], _, _, _, hmem, _ => hmem
  | none :: rest, c, s, nodeId, hmem, hhac => by
    simpa [destroyObjectsLoop] using
      destroyObjectsLoop_copy_mem env rest c s nodeId hmem
        (fun o ho => hhac o (List.mem_cons_of_mem _ ho))
  | some o :: rest, c, s, nodeId, hmem, hhac => by
    by_cases hk : o.pendingKill
    · simpa [destroyObjectsLoop, hk] using
        destroyObjectsLoop_copy_mem env rest c s nodeId hmem
          (fun o2 ho2 => hhac o2 (List.mem_cons_of_mem _ ho2))
    · by_cases hh : o.objType = EHoudiniInputObjectType.HoudiniAssetComponent
      · have hne : o.InputNodeId ≠ nodeId :=
          hhac o (List.mem_cons_self _ _) (by simpa using hk) hh
        have hmem2 : nodeId ∈ c.filter (fun nodeId2 => nodeId2 ≠ o.InputNodeId) := by
          simp only [List.mem_filter, decide_eq_true_eq]
          exact ⟨hmem, fun hcontra => hne hcontra.symm⟩
        simpa [destroyObjectsLoop, hk, hh] using
          destroyObjectsLoop_copy_mem env rest _ _ nodeId hmem2
            (fun o2 ho2 => hhac o2 (List.mem_cons_of_mem _ ho2))
      · simpa [destroyObjectsLoop, hk, hh] using
          destroyObjectsLoop_copy_mem env rest c _ nodeId hmem
            (fun o2 ho2 => hhac o2 (List.mem_cons_of_mem _ ho2))

theorem setHoudiniInputObjectArray_scalars (i : UHoudiniInput)
    (t : EHoudiniInputType) (objs : List (Option UHoudiniInputObject)) :
    (setHoudiniInputObjectArray i t objs).CreatedDataNodeIds = i.CreatedDataNodeIds
    ∧ (setHoudiniInputObjectArray i t objs).InputNodeId = i.InputNodeId
    ∧ (setHoudiniInputObjectArray i t objs).pendingKill = i.pendingKill
    ∧ (setHoudiniInputObjectArray i t objs).bCanDeleteHoudiniNodes = i.bCanDeleteHoudiniNodes := by
  cases t <;> simp [setHoudiniInputObjectArray]

theorem setHoudiniInputObjectArray_get (i : UHoudiniInput)
    (t : EHoudiniInputType) (objs : List (Option UHoudiniInputObject))
    (ht : t ≠ EHoudiniInputType.Invalid) :
    GetHoudiniInputObjectArray (setHoudiniInputObjectArray i t objs) t = some objs := by
  cases t <;> simp_all [GetHoudiniInputObjectArray, setHoudiniInputObjectArray]

theorem destroyObjectsLoop_nodes_mono (env : HapiEnv) :
    ∀ (objs : List (Option UHoudiniInputObject)) (c : List Int) (s : Session) (x : Int),
      x ∈ (destroyObjectsLoop env objs c s).2.2.nodes → x ∈ s.nodes
  | [], _, _, _, h => h
  | none :: rest, c, s, x, h =>
    destroyObjectsLoop_nodes_mono env rest c s x (by simpa [destroyObjectsLoop] using h)
  | some o :: rest, c, s, x, h => by
    by_cases hk : o.pendingKill
    · exact destroyObjectsLoop_nodes_mono env rest c s x
        (by simpa [destroyObjectsLoop, hk] using h)
    · exact destroyObjSession_nodes_mono env o
        (destroyObjectsLoop_nodes_mono env rest _ _ x
          (by simpa [destroyObjectsLoop, hk] using h))

theorem get_array_update_inputNodeId (j : UHoudiniInput) (v : Int)
    (t : EHoudiniInputType) :
    GetHoudiniInputObjectArray { j with InputNodeId := v } t
      = GetHoudiniInputObjectArray j t := by
  cases t <;> rfl

theorem destroyObjUpdate_ids (env : HapiEnv) (o : UHoudiniInputObject)
    (h1 : -1 ≤ o.InputNodeId) (h2 : -1 ≤ o.InputObjectNodeId) :
    (destroyObjUpdate env o).InputNodeId = -1
    ∧ (destroyObjUpdate env o).InputObjectNodeId = -1 := by
  unfold destroyObjUpdate
  split
  · exact ⟨rfl, rfl⟩
  · constructor <;> simp only [] <;> split <;> omega

/- ### Sample environment and inputs used by witnesses and counterexamples -/

/-- A concrete oracle: every external call succeeds, translators leave node
ids unchanged, lookups return nothing. -/
def sampleEnv : HapiEnv where
  getAssetInfoResult := some ⟨1⟩
  getNodeInputName := fun _ => none
  createNodeOk := true
  connectNodeInputOk := true
  setParmNodeValueOk := true
  queryNodeInput := fun _ _ => -1
  parentNodeId := fun _ => -1
  isGarbageCollecting := false
  translate := fun _ o => ⟨true, o.InputNodeId, o.InputObjectNodeId, o.BlueprintStaticMeshes⟩
  translateComp := fun _ c => ⟨true, c.InputNodeId, c.InputObjectNodeId⟩
  refreshActorComponents := fun cs => cs
  setObjectTransformOk := fun _ => true
  getObjectTransformOk := fun _ => true
  updateTransformTypeOk := fun _ => true
  updatePackBeforeMergeOk := fun _ => true
  updateTransformOffsetOk := fun _ => true
  setDefaultAssetEffect := fun i => (i.InputType, i.objectArrays)
  updateInputCurvesEffect := fun a => a
  updateWorldInputEffect := fun i => i

/-- Empty per-type object arrays. -/
def emptyArrays : InputObjectArrays := ⟨[], [], [], [], [], []⟩

/-- A concrete geometry input with one recorded created-data node id and no
input objects. -/
def sampleInput1 : UHoudiniInput where
  Name := "Input1"
  Label := "Input1"
  Help := ""
  InputType := EHoudiniInputType.Geometry
  PreviousInputType := EHoudiniInputType.Invalid
  AssetNodeId := 0
  InputNodeId := -1
  InputIndex := 0
  ParmId := -1
  bIsObjectPathParameter := false
  pendingKill := false
  bCanDeleteHoudiniNodes := true
  bHasChanged := false
  bNeedsToTriggerUpdate := false
  bDataUploadNeeded := false
  bTransformUploadNeeded := false
  bLandscapeExportTypeChanged := false
  CreatedDataNodeIds := [7]
  objectArrays := emptyArrays

/-- A concrete session holding the node recorded by sampleInput1. -/
def sampleSess : Session := ⟨[7], 8, [], [], [], []⟩

/- ### C2: node lifecycle tracking in DestroyInputNodes -/

/-- C2 counterexample: DestroyInputNodes succeeds on a valid deletable
geometry input whose created-data id list is the single node 7, yet afterwards
the input's created-data id list still holds 7 — the source empties only a
local copy of the list (lines 365 and 446), so the list is not emptied as the
claim states. -/
theorem C2_created_list_not_emptied_counterexample :
    (DestroyInputNodes sampleEnv (some sampleInput1) EHoudiniInputType.Geometry sampleSess).1
      = true
    ∧ ((DestroyInputNodes sampleEnv (some sampleInput1) EHoudiniInputType.Geometry
        sampleSess).2.1.map (fun x => x.CreatedDataNodeIds)) = some [7] := by
  constructor <;> rfl

/-- C2 (amended): for a non-null, not pending-kill input that may delete
Houdini nodes and whose type is not Asset, a successful DestroyInputNodes
leaves the input's own node id at -1 and both node ids of every surviving
input object of the processed array at -1 (assuming ids are at least -1);
every nonnegative recorded created-data node id not belonging to a
Houdini-asset-component input object is deleted from the session; the input's
created-data id list itself is left unchanged (only a local copy is emptied);
and the call returns false when the input is null, pending kill, or not
allowed to delete nodes. -/
theorem C2_destroy_input_nodes_amended
    (env : HapiEnv) (i : UHoudiniInput) (t : EHoudiniInputType) (sess : Session)
    (hkill : i.pendingKill = false) (hdel : i.bCanDeleteHoudiniNodes = true)
    (htype : t ≠ EHoudiniInputType.Asset) (hid : -1 ≤ i.InputNodeId) :
    (DestroyInputNodes env (some i) t sess).1 = true
    ∧ (∃ i2, (DestroyInputNodes env (some i) t sess).2.1 = some i2
        ∧ i2.InputNodeId = -1
        ∧ i2.CreatedDataNodeIds = i.CreatedDataNodeIds
        ∧ (∀ objs, GetHoudiniInputObjectArray i t = some objs →
            ∃ objs2, GetHoudiniInputObjectArray i2 t = some objs2
              ∧ objs2.length = objs.length
              ∧ ∀ k o, objs.get? k = some (some o) → o.pendingKill = false →
                  -1 ≤ o.InputNodeId → -1 ≤ o.InputObjectNodeId →
                  ∃ o2, objs2.get? k = some (some o2)
                    ∧ o2.InputNodeId = -1 ∧ o2.InputObjectNodeId = -1))
    ∧ (∀ nodeId ∈ i.CreatedDataNodeIds, 0 ≤ nodeId →
        (∀ objs, GetHoudiniInputObjectArray i t = some objs →
          ∀ o : UHoudiniInputObject, some o ∈ objs → o.pendingKill = false →
            o.objType = EHoudiniInputObjectType.HoudiniAssetComponent →
            o.InputNodeId ≠ nodeId) →
        nodeId ∉ (DestroyInputNodes env (some i) t sess).2.2.nodes)
    ∧ (DestroyInputNodes env none t sess).1 = false
    ∧ (∀ j : UHoudiniInput, j.pendingKill = true →
        (DestroyInputNodes env (some j) t sess).1 = false)
    ∧ (∀ j : UHoudiniInput, j.bCanDeleteHoudiniNodes = false →
        (DestroyInputNodes env (some j) t sess).1 = false) := by
  refine ⟨?_, ?_, ?_, ?_, ?_, ?_⟩
  · -- success
    cases hobjs : GetHoudiniInputObjectArray i t <;>
      simp [DestroyInputNodes, hkill, hdel, htype, hobjs] <;> split_ifs <;> rfl
  · -- the resulting input
    cases hobjs : GetHoudiniInputObjectArray i t with
    | none =>
      by_cases hfin : (0 : Int) ≤ i.InputNodeId
      · refine ⟨{ i with InputNodeId := -1 },
          by simp [DestroyInputNodes, hkill, hdel, htype, hobjs, hfin], rfl, rfl, ?_⟩
        intro objs h
        exact absurd h (by simp)
      · refine ⟨i,
          by simp [DestroyInputNodes, hkill, hdel, htype, hobjs, hfin], by omega, rfl, ?_⟩
        intro objs h
        exact absurd h (by simp)
    | some objs =>
      have htinv : t ≠ EHoudiniInputType.Invalid := by
        intro h
        subst h
        simp [GetHoudiniInputObjectArray] at hobjs
      have harr := destroyObjectsLoop_fst env objs i.CreatedDataNodeIds sess
      set loopR := destroyObjectsLoop env objs i.CreatedDataNodeIds sess with hloop
      set i1 := setHoudiniInputObjectArray i t loopR.1 with hi1
      have hscal := setHoudiniInputObjectArray_scalars i t loopR.1
      rw [← hi1] at hscal
      have hget1 : GetHoudiniInputObjectArray i1 t = some loopR.1 := by
        rw [hi1]
        exact setHoudiniInputObjectArray_get _ _ _ htinv
      have hbody : ∀ k o, objs.get? k = some (some o) → o.pendingKill = false →
          -1 ≤ o.InputNodeId → -1 ≤ o.InputObjectNodeId →
          ∃ o2, loopR.1.get? k = some (some o2)
            ∧ o2.InputNodeId = -1 ∧ o2.InputObjectNodeId = -1 := by
        intro k o hk hkill2 ho1 ho2
        refine ⟨destroyObjUpdate env o, ?_, destroyObjUpdate_ids env o ho1 ho2⟩
        rw [harr, List.get?_map, hk]
        simp [destroyObjMap, hkill2]
      have hlen : loopR.1.length = objs.length := by
        rw [harr, List.length_map]
      by_cases hfin : (0 : Int) ≤ i.InputNodeId
      · refine ⟨{ i1 with InputNodeId := -1 }, ?_, rfl, ?_, ?_⟩
        · simp [DestroyInputNodes, hkill, hdel, htype, hobjs, ← hloop, ← hi1,
            hscal.2.1, hfin]
        · exact hscal.1
        · intro objs0 h0
          injection h0 with h0
          subst h0
          refine ⟨loopR.1, ?_, hlen, hbody⟩
          rw [get_array_update_inputNodeId]
          exact hget1
      · refine ⟨i1, ?_, by rw [hscal.2.1]; omega, hscal.1, ?_⟩
        · simp [DestroyInputNodes, hkill, hdel, htype, hobjs, ← hloop, ← hi1,
            hscal.2.1, hfin]
        · intro objs0 h0
          injection h0 with h0
          subst h0
          exact ⟨loopR.1, hget1, hlen, hbody⟩
  · -- nonnegative recorded ids are deleted unless they belong to a HAC object
    intro nodeId hmem hpos hnohac
    cases hobjs : GetHoudiniInputObjectArray i t with
    | none =>
      have hgone := deleteCreatedIds_not_mem i.CreatedDataNodeIds sess nodeId hmem hpos
      intro hcontra
      apply hgone
      revert hcontra
      simp [DestroyInputNodes, hkill, hdel, htype, hobjs]
      split_ifs with h1 h2 <;> intro hcontra
      · exact Session.deleteNode_nodes_mono (Session.deleteNode_nodes_mono (by simpa using hcontra))
      · exact Session.deleteNode_nodes_mono (by simpa using hcontra)
      · simpa using hcontra
    | some objs =>
      set loopR := destroyObjectsLoop env objs i.CreatedDataNodeIds sess with hloop
      have hcopy : nodeId ∈ loopR.2.1 :=
        destroyObjectsLoop_copy_mem env objs i.CreatedDataNodeIds sess nodeId hmem
          (fun o ho => hnohac objs hobjs o ho)
      have hgone := deleteCreatedIds_not_mem loopR.2.1 loopR.2.2 nodeId hcopy hpos
      intro hcontra
      apply hgone
      revert hcontra
      have hscal := setHoudiniInputObjectArray_scalars i t loopR.1
      simp [DestroyInputNodes, hkill, hdel, htype, hobjs, ← hloop]
      split_ifs with h1 h2 <;> intro hcontra
      · exact Session.deleteNode_nodes_mono (Session.deleteNode_nodes_mono (by simpa using hcontra))
      · exact Session.deleteNode_nodes_mono (by simpa using hcontra)
      · simpa using hcontra
  · rfl
  · intro j hj
    simp [DestroyInputNodes, hj]
  · intro j hj
    by_cases hk : j.pendingKill <;> simp [DestroyInputNodes, hk, hj]

/-- Witness for C2 (amended): evaluated on the concrete sample input. -/
theorem C2_destroy_input_nodes_amended_witness :
    (DestroyInputNodes sampleEnv (some sampleInput1) EHoudiniInputType.Geometry sampleSess).1
      = true :=
  (C2_destroy_input_nodes_amended sampleEnv sampleInput1 EHoudiniInputType.Geometry
    sampleSess rfl rfl (by decide) (by decide)).1

/- ### C9: asset inputs are disconnected, never destroyed -/

/-- C9: for a valid deletable input of type Asset, DestroyInputNodes returns
true and leaves the whole session (and the input) untouched; DisconnectInput
leaves every session node alive (it only logs a disconnect or parameter
clear) and resets the input's node id to -1; hence DisconnectAndDestroyInput
preserves all nodes of the upstream input HDA. -/
theorem C9_asset_input_disconnect_only
    (env : HapiEnv) (i : UHoudiniInput) (sess : Session)
    (hkill : i.pendingKill = false) (hdel : i.bCanDeleteHoudiniNodes = true) :
    (DestroyInputNodes env (some i) EHoudiniInputType.Asset sess).1 = true
    ∧ (DestroyInputNodes env (some i) EHoudiniInputType.Asset sess).2.1 = some i
    ∧ (DestroyInputNodes env (some i) EHoudiniInputType.Asset sess).2.2 = sess
    ∧ (DisconnectInput (some i) EHoudiniInputType.Asset sess).2.2.nodes = sess.nodes
    ∧ (∀ i1, (DisconnectInput (some i) EHoudiniInputType.Asset sess).2.1 = some i1 →
        i1.InputNodeId = -1)
    ∧ (DisconnectAndDestroyInput env (some i) EHoudiniInputType.Asset sess).1 = true
    ∧ (DisconnectAndDestroyInput env (some i) EHoudiniInputType.Asset sess).2.2.nodes
        = sess.nodes
    ∧ (∀ i2, (DisconnectAndDestroyInput env (some i) EHoudiniInputType.Asset sess).2.1
        = some i2 → i2.InputNodeId = -1) := by
  have hDisc : ∃ s1, DisconnectInput (some i) EHoudiniInputType.Asset sess
      = (true, some { i with InputNodeId := -1 }, s1) ∧ s1.nodes = sess.nodes := by
    by_cases hp : i.bIsObjectPathParameter
    · refine ⟨sess.setParmStringNull i.AssetNodeId i.ParmId, ?_, ?_⟩
      · simp [DisconnectInput, hkill, hp]
      · simp [Session.setParmStringNull]
    · by_cases hc : (0 : Int) ≤ i.AssetNodeId ∧ (0 : Int) ≤ i.InputNodeId
      · refine ⟨sess.disconnectNodeInput i.AssetNodeId i.InputIndex, ?_, ?_⟩
        · simp [DisconnectInput, hkill, hp, hc]
        · simp [Session.disconnectNodeInput]
      · refine ⟨sess, ?_, rfl⟩
        simp [DisconnectInput, hkill, hp, hc]
  obtain ⟨s1, hD1, hD1n⟩ := hDisc
  have hDest : ∀ (j : UHoudiniInput) (s : Session), j.pendingKill = false →
      j.bCanDeleteHoudiniNodes = true →
      DestroyInputNodes env (some j) EHoudiniInputType.Asset s = (true, some j, s) := by
    intro j s hj hd
    simp [DestroyInputNodes, hj, hd]
  have hDD : DisconnectAndDestroyInput env (some i) EHoudiniInputType.Asset sess
      = (true, some { i with InputNodeId := -1 }, s1) := by
    unfold DisconnectAndDestroyInput
    rw [hD1]
    simp [hDest { i with InputNodeId := -1 } s1 hkill hdel]
  refine ⟨?_, ?_, ?_, ?_, ?_, ?_, ?_, ?_⟩
  · rw [hDest i sess hkill hdel]
  · rw [hDest i sess hkill hdel]
  · rw [hDest i sess hkill hdel]
  · rw [hD1, hD1n]
  · intro i1 h1
    rw [hD1] at h1
    cases h1
    rfl
  · rw [hDD]
  · rw [hDD]
    exact hD1n
  · rw [hDD]
    intro i2 h2
    cases h2
    rfl

/-- Witness for C9: evaluated on the concrete sample input. -/
theorem C9_asset_input_disconnect_only_witness :
    (DestroyInputNodes sampleEnv (some sampleInput1) EHoudiniInputType.Asset sampleSess).1
      = true :=
  (C9_asset_input_disconnect_only sampleEnv sampleInput1 sampleSess rfl rfl).1

/- ### UploadHoudiniInputObject: input marshalling dispatch
   (HoudiniInputTranslator.cpp lines 1183-1394, 2254-2342). -/

/-- The translator the spec assigns to each input object kind (the
claim-side mapping, to be compared against the source-derived dispatch). -/
def specTranslatorFor : EHoudiniInputObjectType → Option TranslatorKind
  | EHoudiniInputObjectType.Object => some TranslatorKind.ForObject
  | EHoudiniInputObjectType.StaticMesh => some TranslatorKind.ForStaticMesh
  | EHoudiniInputObjectType.SkeletalMesh => some TranslatorKind.ForSkeletalMesh
  | EHoudiniInputObjectType.SceneComponent => some TranslatorKind.ForSceneComponent
  | EHoudiniInputObjectType.StaticMeshComponent => some TranslatorKind.ForStaticMeshComponent
  | EHoudiniInputObjectType.InstancedStaticMeshComponent =>
      some TranslatorKind.ForInstancedStaticMeshComponent
  | EHoudiniInputObjectType.SplineComponent => some TranslatorKind.ForSplineComponent
  | EHoudiniInputObjectType.HoudiniSplineComponent =>
      some TranslatorKind.ForHoudiniSplineComponent
  | EHoudiniInputObjectType.HoudiniAssetActor => some TranslatorKind.ForHoudiniAssetComponent
  | EHoudiniInputObjectType.HoudiniAssetComponent => some TranslatorKind.ForHoudiniAssetComponent
  | EHoudiniInputObjectType.Actor => some TranslatorKind.ForActor
  | EHoudiniInputObjectType.Landscape => some TranslatorKind.ForLandscape
  | EHoudiniInputObjectType.Brush => some TranslatorKind.ForBrush
  | EHoudiniInputObjectType.CameraComponent => some TranslatorKind.ForCamera
  | EHoudiniInputObjectType.DataTable => some TranslatorKind.ForDataTable
  | EHoudiniInputObjectType.FoliageType_InstancedStaticMesh =>
      some TranslatorKind.ForFoliageType_InstancedStaticMesh
  | EHoudiniInputObjectType.Invalid => none

/-- Result of UploadHoudiniInputObject on an actor-contained component:
return value, updated component, appended created-node list, and the trace of
translators invoked. -/
structure UploadCompResult where
  success : Bool
  comp : Option UHoudiniInputSceneComponent
  outCreatedNodeIds : List Int
  calls : List TranslatorKind
deriving DecidableEq, Repr

/-- UploadHoudiniInputObject (lines 1183-1394) applied to an actor-contained
component object (this path is reached from HapiCreateInputNodeForActor line
2319 and from the component branch of UploadInputData line 961).  The switch is
the same as for array-level objects; a scene component carries one of the
component object types, for which the casts of the corresponding cases
succeed.  For the remaining cases the cast of a scene component to the class
the case expects yields null and the translator fails on its null check,
except the Object case, which takes the base class and needs no cast. -/
def UploadHoudiniInputObjectComp (env : HapiEnv) (inInput : Option UHoudiniInput)
    (comp? : Option UHoudiniInputSceneComponent) (outIds : List Int) :
    UploadCompResult :=
  match inInput, comp? with
  | none, c => ⟨false, c, outIds, []⟩
  | some _, none => ⟨false, none, outIds, []⟩
  | some _, some comp =>
    let applyComp (k : TranslatorKind) : UploadCompResult :=
      let res := env.translateComp k comp
      let comp1 := { comp with InputNodeId := res.newInputNodeId,
                               InputObjectNodeId := res.newInputObjectNodeId }
      if res.success then
        ⟨true, some comp1, outIds ++ [comp1.InputObjectNodeId], [k]⟩
      else
        ⟨false, some comp1, outIds, [k]⟩
    let r :=
      match comp.objType with
      | EHoudiniInputObjectType.Object => applyComp TranslatorKind.ForObject
      | EHoudiniInputObjectType.SceneComponent => applyComp TranslatorKind.ForSceneComponent
      | EHoudiniInputObjectType.StaticMeshComponent =>
          applyComp TranslatorKind.ForStaticMeshComponent
      | EHoudiniInputObjectType.InstancedStaticMeshComponent =>
          applyComp TranslatorKind.ForInstancedStaticMeshComponent
      | EHoudiniInputObjectType.SplineComponent => applyComp TranslatorKind.ForSplineComponent
      | EHoudiniInputObjectType.HoudiniSplineComponent =>
          applyComp TranslatorKind.ForHoudiniSplineComponent
      | EHoudiniInputObjectType.CameraComponent => applyComp TranslatorKind.ForCamera
      | EHoudiniInputObjectType.Invalid => ⟨true, some comp, outIds, []⟩
      | _ => ⟨false, some comp, outIds, []⟩
    -- mark the object as not changed on success; in both cases prevent it
    -- from triggering further updates
    match r.comp with
    | some c2 =>
      if r.success then
        { r with comp := some { c2 with bHasChanged := false, bNeedsToTriggerUpdate := false } }
      else
        { r with comp := some { c2 with bNeedsToTriggerUpdate := false } }
    | none => r

/-- Result of UploadHoudiniInputObject on an array-level input object. -/
structure UploadObjectResult where
  success : Bool
  obj : Option UHoudiniInputObject
  outCreatedNodeIds : List Int
  calls : List TranslatorKind
deriving DecidableEq, Repr

/-- The component loop of HapiCreateInputNodeForActor (lines 2316-2321): every
component is handed to UploadHoudiniInputObject; failures only stop the
per-component counter, never the actor upload. -/
def uploadActorComponents (env : HapiEnv) (inInput : UHoudiniInput) :
    List (Option UHoudiniInputSceneComponent) → List Int →
    List (Option UHoudiniInputSceneComponent) × List Int × List TranslatorKind
  | [], outIds => ([], outIds, [])
  | c? :: rest, outIds =>
    let r := UploadHoudiniInputObjectComp env (some inInput) c? outIds
    let rr := uploadActorComponents env inInput rest r.outCreatedNodeIds
    (r.comp :: rr.1, rr.2.1, r.calls ++ rr.2.2)

/-- FHoudiniInputTranslator::HapiCreateInputNodeForActor (lines 2254-2342). -/
def HapiCreateInputNodeForActor (env : HapiEnv) (inInput : Option UHoudiniInput)
    (obj? : Option UHoudiniInputObject) (outIds : List Int) : UploadObjectResult :=
  match inInput, obj? with
  | none, o => ⟨false, o, outIds, []⟩
  | some _, none => ⟨false, none, outIds, []⟩
  | some i, some o =>
    if i.pendingKill then ⟨false, some o, outIds, []⟩
    else if o.pendingKill then ⟨false, some o, outIds, []⟩
    -- a null actor is not an error
    else if !o.hasObject then ⟨true, some o, outIds, []⟩
    else
      -- for world inputs wrapping a Houdini asset actor the recorded
      -- components may be refreshed first (proxy-mesh handling, lines
      -- 2267-2313)
      let comps0 :=
        if i.InputType = EHoudiniInputType.World && o.actorIsHoudiniAssetActor then
          env.refreshActorComponents o.ActorComponents
        else o.ActorComponents
      let r := uploadActorComponents env i comps0 outIds
      -- the actor transform is cached and the actor upload reports success
      ⟨true, some { o with ActorComponents := r.1 }, r.2.1, r.2.2⟩

/-- FHoudiniInputTranslator::UploadHoudiniInputObject (lines 1183-1394):
dispatches on the input object's type to the dedicated HapiCreateInputNodeFor*
translator, appends the created node id(s) on success, and updates the
object's changed / needs-to-trigger-update flags. -/
def UploadHoudiniInputObject (env : HapiEnv) (inInput : Option UHoudiniInput)
    (obj? : Option UHoudiniInputObject) (outIds : List Int) : UploadObjectResult :=
  match inInput, obj? with
  | none, o => ⟨false, o, outIds, []⟩
  | some _, none => ⟨false, none, outIds, []⟩
  | some i, some o =>
    let applyTr (k : TranslatorKind) : UploadObjectResult :=
      let res := env.translate k o
      let o1 := { o with InputNodeId := res.newInputNodeId,
                         InputObjectNodeId := res.newInputObjectNodeId,
                         BlueprintStaticMeshes := res.newBlueprintStaticMeshes }
      if res.success then ⟨true, some o1, outIds ++ [o1.InputObjectNodeId], [k]⟩
      else ⟨false, some o1, outIds, [k]⟩
    -- StaticMesh: a blueprint input contributes the node ids of all its
    -- blueprint static-mesh sub-objects instead of its own id
    let applySM : UploadObjectResult :=
      let res := env.translate TranslatorKind.ForStaticMesh o
      let o1 := { o with InputNodeId := res.newInputNodeId,
                         InputObjectNodeId := res.newInputObjectNodeId,
                         BlueprintStaticMeshes := res.newBlueprintStaticMeshes }
      if res.success then
        if o1.bIsBlueprint then
          ⟨true, some o1, outIds ++ o1.BlueprintStaticMeshes, [TranslatorKind.ForStaticMesh]⟩
        else
          ⟨true, some o1, outIds ++ [o1.InputObjectNodeId], [TranslatorKind.ForStaticMesh]⟩
      else ⟨false, some o1, outIds, [TranslatorKind.ForStaticMesh]⟩
    let r :=
      match o.objType with
      | EHoudiniInputObjectType.Object => applyTr TranslatorKind.ForObject
      | EHoudiniInputObjectType.StaticMesh => applySM
      | EHoudiniInputObjectType.SkeletalMesh => applyTr TranslatorKind.ForSkeletalMesh
      | EHoudiniInputObjectType.SceneComponent => applyTr TranslatorKind.ForSceneComponent
      | EHoudiniInputObjectType.StaticMeshComponent =>
          applyTr TranslatorKind.ForStaticMeshComponent
      | EHoudiniInputObjectType.InstancedStaticMeshComponent =>
          applyTr TranslatorKind.ForInstancedStaticMeshComponent
      | EHoudiniInputObjectType.SplineComponent => applyTr TranslatorKind.ForSplineComponent
      | EHoudiniInputObjectType.HoudiniSplineComponent =>
          applyTr TranslatorKind.ForHoudiniSplineComponent
      | EHoudiniInputObjectType.HoudiniAssetActor =>
          applyTr TranslatorKind.ForHoudiniAssetComponent
      | EHoudiniInputObjectType.HoudiniAssetComponent =>
          applyTr TranslatorKind.ForHoudiniAssetComponent
      | EHoudiniInputObjectType.Actor =>
          let ra := HapiCreateInputNodeForActor env (some i) (some o) outIds
          ⟨ra.success, ra.obj, ra.outCreatedNodeIds, TranslatorKind.ForActor :: ra.calls⟩
      | EHoudiniInputObjectType.Landscape => applyTr TranslatorKind.ForLandscape
      | EHoudiniInputObjectType.Brush => applyTr TranslatorKind.ForBrush
      | EHoudiniInputObjectType.CameraComponent => applyTr TranslatorKind.ForCamera
      | EHoudiniInputObjectType.DataTable => applyTr TranslatorKind.ForDataTable
      | EHoudiniInputObjectType.FoliageType_InstancedStaticMesh =>
          applyTr TranslatorKind.ForFoliageType_InstancedStaticMesh
      | EHoudiniInputObjectType.Invalid => ⟨true, some o, outIds, []⟩
    -- mark that input object as not changed on success; in both cases prevent
    -- it from triggering further updates
    match r.obj with
    | some o2 =>
      if r.success then
        { r with obj := some { o2 with bHasChanged := false, bNeedsToTriggerUpdate := false } }
      else
        { r with obj := some { o2 with bNeedsToTriggerUpdate := false } }
    | none => r

set_option maxHeartbeats 1600000 in
/-- C4: for every non-null input and input object, UploadHoudiniInputObject
dispatches on the object's type to the dedicated HapiCreateInputNodeFor*
translator of that kind; afterwards the changed flag is cleared exactly when
the translator succeeded and the needs-to-trigger-update flag is always
cleared; and for non-actor kinds the created node id(s) — the object's new
node id, or the blueprint static-mesh node ids for a blueprint static mesh —
are appended to the caller's created-node list exactly when the translator
succeeded. -/
theorem C4_upload_object_dispatch (env : HapiEnv) (i : UHoudiniInput)
    (o : UHoudiniInputObject) (outIds : List Int)
    (hkind : o.objType ≠ EHoudiniInputObjectType.Invalid) :
    (UploadHoudiniInputObject env (some i) (some o) outIds).calls.head?
      = specTranslatorFor o.objType
    ∧ (∀ o2, (UploadHoudiniInputObject env (some i) (some o) outIds).obj = some o2 →
        o2.bHasChanged
          = (if (UploadHoudiniInputObject env (some i) (some o) outIds).success
             then false else o.bHasChanged)
        ∧ o2.bNeedsToTriggerUpdate = false)
    ∧ (o.objType ≠ EHoudiniInputObjectType.Actor →
        ∀ o2, (UploadHoudiniInputObject env (some i) (some o) outIds).obj = some o2 →
          ((UploadHoudiniInputObject env (some i) (some o) outIds).success = true →
            (UploadHoudiniInputObject env (some i) (some o) outIds).outCreatedNodeIds
              = outIds ++
                (if o.objType = EHoudiniInputObjectType.StaticMesh ∧ o.bIsBlueprint = true
                 then o2.BlueprintStaticMeshes
                 else [o2.InputObjectNodeId]))
          ∧ ((UploadHoudiniInputObject env (some i) (some o) outIds).success = false →
            (UploadHoudiniInputObject env (some i) (some o) outIds).outCreatedNodeIds
              = outIds)) := by
  refine ⟨?_, ?_, ?_⟩
  · cases hot : o.objType
    case Invalid => exact absurd hot hkind
    all_goals
      simp only [UploadHoudiniInputObject, specTranslatorFor,
        HapiCreateInputNodeForActor, hot]
    all_goals
      split_ifs <;> rfl
  · cases hot : o.objType
    case Invalid => exact absurd hot hkind
    all_goals
      intro o2 ho2
      revert ho2
      simp only [UploadHoudiniInputObject, HapiCreateInputNodeForActor, hot]
      split_ifs <;> intro ho2 <;> injection ho2 with ho2 <;> subst ho2 <;> simp
  · intro hact o2 ho2
    revert ho2
    cases hot : o.objType
    case Invalid => exact absurd hot hkind
    case Actor => exact absurd hot hact
    all_goals
      simp only [UploadHoudiniInputObject, hot]
      split_ifs <;> intro ho2 <;> injection ho2 with ho2 <;> subst ho2 <;>
        constructor <;> intro hs <;> simp_all

/-- A non-blueprint static-mesh input object. -/
def sampleObjSM : UHoudiniInputObject where
  objType := EHoudiniInputObjectType.StaticMesh
  InputNodeId := -1
  InputObjectNodeId := -1
  bHasChanged := true
  bTransformChanged := false
  bNeedsToTriggerUpdate := false
  pendingKill := false
  hasObject := true
  actorIsHoudiniAssetActor := false
  bIsBlueprint := false
  BlueprintStaticMeshes := []
  ActorComponents := []
  curveComponentNodeId := none

/-- Witness for C4: the static-mesh object is dispatched to the static-mesh
translator. -/
theorem C4_upload_object_dispatch_witness :
    (UploadHoudiniInputObject sampleEnv (some sampleInput1) (some sampleObjSM) []).calls.head?
      = specTranslatorFor sampleObjSM.objType :=
  (C4_upload_object_dispatch sampleEnv sampleInput1 sampleObjSM [] (by decide)).1

/- ### UploadInputData and its loop (lines 915-1109), ConnectInputNode
   (lines 1145-1181). -/

/-- Trace entry naming which array object (by index), or which component of
which actor object, was handed to UploadHoudiniInputObject by the
UploadInputData loop. -/
inductive UploadEvent
  | object (idx : Nat)
  | component (idx : Nat) (compIdx : Nat)
deriving DecidableEq, Repr

/-- The array-object index an upload event refers to. -/
def UploadEvent.index : UploadEvent → Nat
  | UploadEvent.object idx => idx
  | UploadEvent.component idx _ => idx

/-- Result of the per-component keep-or-upload loop for an unchanged actor
object with a valid node id (lines 947-964). -/
structure KeepUploadCompsResult where
  comps : List (Option UHoudiniInputSceneComponent)
  createdNodeIds : List Int
  success : Bool
  events : List UploadEvent
deriving DecidableEq, Repr

/-- The component loop of UploadInputData for an unchanged actor with a valid
node id (lines 947-964): components that have not changed and have a valid
node id keep their node, the others are uploaded. -/
def keepOrUploadComponents (env : HapiEnv) (inInput : UHoudiniInput) (idx : Nat) :
    List (Option UHoudiniInputSceneComponent) → Nat → List Int → KeepUploadCompsResult
  | [], _, ids => ⟨[], ids, true, []⟩
  | none :: rest, j, ids =>
    let rr := keepOrUploadComponents env inInput idx rest (j + 1) ids
    ⟨none :: rr.comps, rr.createdNodeIds, rr.success, rr.events⟩
  | some c :: rest, j, ids =>
    if c.pendingKill then
      let rr := keepOrUploadComponents env inInput idx rest (j + 1) ids
      ⟨some c :: rr.comps, rr.createdNodeIds, rr.success, rr.events⟩
    else if c.bHasChanged = false ∧ 0 ≤ c.InputObjectNodeId then
      -- the component has not changed and is valid: keep it
      let rr := keepOrUploadComponents env inInput idx rest (j + 1)
        (ids ++ [c.InputObjectNodeId])
      ⟨some c :: rr.comps, rr.createdNodeIds, rr.success, rr.events⟩
    else
      -- upload the component input object to Houdini
      let u := UploadHoudiniInputObjectComp env (some inInput) (some c) ids
      let rr := keepOrUploadComponents env inInput idx rest (j + 1) u.outCreatedNodeIds
      ⟨u.comp :: rr.comps, rr.createdNodeIds, u.success && rr.success,
        UploadEvent.component idx j :: rr.events⟩

/-- Result of the object loop of UploadInputData. -/
structure UploadLoopResult where
  objs : List (Option UHoudiniInputObject)
  createdNodeIds : List Int
  success : Bool
  events : List UploadEvent
deriving DecidableEq, Repr

/-- The object loop of UploadInputData (lines 929-979): objects that have not
changed and have a valid created node keep that node (actor objects keep or
upload per contained component); the others are uploaded. -/
def uploadInputDataLoop (env : HapiEnv) (inInput : UHoudiniInput) :
    List (Option UHoudiniInputObject) → Nat → List Int → UploadLoopResult
  | [], _, ids => ⟨[], ids, true, []⟩
  | none :: rest, idx, ids =>
    let rr := uploadInputDataLoop env inInput rest (idx + 1) ids
    ⟨none :: rr.objs, rr.createdNodeIds, rr.success, rr.events⟩
  | some o :: rest, idx, ids =>
    if o.pendingKill then
      let rr := uploadInputDataLoop env inInput rest (idx + 1) ids
      ⟨some o :: rr.objs, rr.createdNodeIds, rr.success, rr.events⟩
    else if o.bHasChanged = false ∧ 0 ≤ o.InputObjectNodeId then
      if o.objType = EHoudiniInputObjectType.Actor then
        -- an unchanged actor contains input objects for its components:
        -- keep or upload each of them
        let rc := keepOrUploadComponents env inInput idx o.ActorComponents 0 ids
        let rr := uploadInputDataLoop env inInput rest (idx + 1) rc.createdNodeIds
        ⟨some { o with ActorComponents := rc.comps } :: rr.objs, rr.createdNodeIds,
          rc.success && rr.success, rc.events ++ rr.events⟩
      else
        -- no changes: keep the created input node
        let rr := uploadInputDataLoop env inInput rest (idx + 1)
          (ids ++ [o.InputObjectNodeId])
        ⟨some o :: rr.objs, rr.createdNodeIds, rr.success, rr.events⟩
    else
      -- upload the input object to Houdini
      let u := UploadHoudiniInputObject env (some inInput) (some o) ids
      let rr := uploadInputDataLoop env inInput rest (idx + 1) u.outCreatedNodeIds
      ⟨u.obj :: rr.objs, rr.createdNodeIds, u.success && rr.success,
        UploadEvent.object idx :: rr.events⟩

/-- FHoudiniInputTranslator::ConnectInputNode (lines 1145-1181). -/
def ConnectInputNode (env : HapiEnv) (inInput : Option UHoudiniInput)
    (sess : Session) : Bool × Session :=
  match inInput with
  | none => (false, sess)
  | some i =>
    if i.pendingKill then (false, sess)
    else if i.AssetNodeId < 0 then (false, sess)
    else if i.InputNodeId < 0 then (false, sess)
    else if i.bIsObjectPathParameter then
      -- assign the input node path to the object path parameter
      if env.setParmNodeValueOk then (true, sess.setParmNodeValue i.AssetNodeId i.InputNodeId)
      else (false, sess)
    else
      if env.connectNodeInputOk then
        (true, sess.connectNodeInput i.AssetNodeId i.InputIndex i.InputNodeId)
      else (false, sess)

/-- The connection loop of UploadInputData (lines 1060-1074): connect the
created input objects to the merge node, skipping invalid ids and the merge
node itself. -/
def connectCreatedNodes (inputNodeId : Int) : List Int → Int → Session → Session
  | [], _, sess => sess
  | nid :: rest, inputIndex, sess =>
    if nid < 0 then connectCreatedNodes inputNodeId rest inputIndex sess
    else if inputNodeId = nid then connectCreatedNodes inputNodeId rest inputIndex sess
    else connectCreatedNodes inputNodeId rest (inputIndex + 1)
      (sess.connectNodeInput inputNodeId inputIndex nid)

/-- The loop disconnecting (and for non-asset inputs destroying) the object
merges plugged into the merge node beyond the freshly connected ones (lines
1078-1100 for the extra previous nodes, lines 1007-1025 for the cleanup of all
previous nodes when nothing was created): runs over count indices starting at
startIdx. -/
def disconnectExtras (env : HapiEnv) (inputNodeId : Int) (isAsset : Bool) :
    Nat → Nat → Session → Session
  | _, 0, sess => sess
  | startIdx, Nat.succ k, sess =>
    -- the object merge connected at this index (queried only for non-asset
    -- inputs; -1 otherwise)
    let mergeId := if isAsset then (-1 : Int)
      else env.queryNodeInput inputNodeId (Int.ofNat startIdx)
    let s1 := sess.disconnectNodeInput inputNodeId (Int.ofNat startIdx)
    let s2 := if isAsset then s1 else s1.deleteNode mergeId
    disconnectExtras env inputNodeId isAsset (startIdx + 1) k s2

/-- The branch of UploadInputData taken when no input node was created (lines
981-1031): for an unchanged-type input the previous connections are undone,
then the created-data list is emptied (here the member itself, via the
reference) and the input node id invalidated. -/
def uploadDataCleanupEmpty (env : HapiEnv) (i : UHoudiniInput) (sess : Session) :
    UHoudiniInput × Session :=
  let sess1 :=
    if i.HasInputTypeChanged = false then
      if i.InputType = EHoudiniInputType.Asset then
        -- disconnect the asset input (the outer component's asset id is the
        -- input's recorded asset node id)
        if 0 ≤ i.InputNodeId ∧ 0 ≤ i.InputIndex then
          sess.disconnectNodeInput i.AssetNodeId i.InputIndex
        else sess
      else if i.InputType = EHoudiniInputType.World then
        -- world input nodes are handled by the input objects themselves
        sess
      else
        if 0 ≤ i.InputNodeId then
          disconnectExtras env i.InputNodeId false 0 i.CreatedDataNodeIds.length sess
        else sess
    else sess
  ({ i with CreatedDataNodeIds := [], InputNodeId := -1 }, sess1)

/-- Result of UploadInputData: return value, updated input, session, the
created-node list built by the loop, and the trace of upload events. -/
structure UploadDataResult where
  success : Bool
  input : Option UHoudiniInput
  sess : Session
  createdNodeIds : List Int
  events : List UploadEvent
deriving DecidableEq, Repr

/-- FHoudiniInputTranslator::UploadInputData (lines 915-1109). -/
def UploadInputData (env : HapiEnv) (inInput : Option UHoudiniInput)
    (sess : Session) : UploadDataResult :=
  match inInput with
  | none => ⟨false, none, sess, [], []⟩
  | some i =>
    if i.pendingKill then ⟨false, some i, sess, [], []⟩
    else
      match GetHoudiniInputObjectArray i i.InputType with
      | none => ⟨false, some i, sess, [], []⟩   -- ensure(InputObjectsArray) failed
      | some objs =>
        let lr := uploadInputDataLoop env i objs 0 []
        let i1 := setHoudiniInputObjectArray i i.InputType lr.objs
        if lr.createdNodeIds.isEmpty then
          -- no input was created: invalidate the input node id
          let cu := uploadDataCleanupEmpty env i1 sess
          ⟨lr.success, some cu.1, cu.2, lr.createdNodeIds, lr.events⟩
        else
          -- make sure the input's merge node exists
          let step2 : UHoudiniInput × Session × Bool :=
            if i1.InputNodeId < 0 ∨ sess.isNodeValid i1.InputNodeId = false then
              if env.createNodeOk then
                let cr := sess.createNode
                ({ i1 with InputNodeId := cr.1 }, cr.2, true)
              else (i1, sess, false)
            else (i1, sess, true)
          let i2 := step2.1
          if step2.2.2 = false then ⟨false, some i2, step2.2.1, lr.createdNodeIds, lr.events⟩
          else
            -- connect all the created input objects to the merge node
            let sess3 := connectCreatedNodes i2.InputNodeId lr.createdNodeIds 0 step2.2.1
            -- disconnect the extra previous input object nodes
            let sess4 :=
              if i2.HasInputTypeChanged = false then
                disconnectExtras env i2.InputNodeId
                  (i2.InputType = EHoudiniInputType.Asset)
                  lr.createdNodeIds.length
                  (i2.CreatedDataNodeIds.length - lr.createdNodeIds.length) sess3
              else sess3
            -- keep track of the nodes plugged into the merge
            let i3 := { i2 with CreatedDataNodeIds := lr.createdNodeIds }
            -- finally, connect the main input node to the asset
            let cr := ConnectInputNode env (some i3) sess4
            ⟨cr.1, some i3, cr.2, lr.createdNodeIds, lr.events⟩

/- ### Lemmas on the upload loops (towards C1) -/

theorem mem_uploadComp_out (env : HapiEnv) (ii : Option UHoudiniInput)
    (c? : Option UHoudiniInputSceneComponent) (ids : List Int) (x : Int)
    (hx : x ∈ ids) :
    x ∈ (UploadHoudiniInputObjectComp env ii c? ids).outCreatedNodeIds := by
  rcases ii with _ | i
  · simpa [UploadHoudiniInputObjectComp] using hx
  rcases c? with _ | c
  · simpa [UploadHoudiniInputObjectComp] using hx
  cases hot : c.objType <;>
    simp only [UploadHoudiniInputObjectComp, hot] <;>
    split_ifs <;> simp_all

theorem mem_uploadActorComps_out (env : HapiEnv) (i : UHoudiniInput) :
    ∀ (comps : List (Option UHoudiniInputSceneComponent)) (ids : List Int) (x : Int),
      x ∈ ids → x ∈ (uploadActorComponents env i comps ids).2.1
  | [], _, _, hx => hx
  | c? :: rest, ids, x, hx => by
    simp only [uploadActorComponents]
    exact mem_uploadActorComps_out env i rest _ x (mem_uploadComp_out env (some i) c? ids x hx)

theorem mem_uploadObj_out (env : HapiEnv) (ii : Option UHoudiniInput)
    (o? : Option UHoudiniInputObject) (ids : List Int) (x : Int)
    (hx : x ∈ ids) :
    x ∈ (UploadHoudiniInputObject env ii o? ids).outCreatedNodeIds := by
  rcases ii with _ | i
  · simpa [UploadHoudiniInputObject] using hx
  rcases o? with _ | o
  · simpa [UploadHoudiniInputObject] using hx
  cases hot : o.objType
  case Actor =>
    simp only [UploadHoudiniInputObject, HapiCreateInputNodeForActor, hot]
    split_ifs <;>
      first
        | simpa using hx
        | exact mem_uploadActorComps_out env i _ ids x hx
  all_goals
    simp only [UploadHoudiniInputObject, hot] <;> split_ifs <;> simp_all

theorem mem_keepOrUpload_out (env : HapiEnv) (i : UHoudiniInput) (idx : Nat) :
    ∀ (comps : List (Option UHoudiniInputSceneComponent)) (j : Nat) (ids : List Int)
      (x : Int), x ∈ ids →
      x ∈ (keepOrUploadComponents env i idx comps j ids).createdNodeIds
  | [], _, _, _, hx => hx
  | none :: rest, j, ids, x, hx => by
    simpa [keepOrUploadComponents] using
      mem_keepOrUpload_out env i idx rest (j + 1) ids x hx
  | some c :: rest, j, ids, x, hx => by
    by_cases hk : c.pendingKill
    · simpa [keepOrUploadComponents, hk] using
        mem_keepOrUpload_out env i idx rest (j + 1) ids x hx
    · by_cases hkeep : c.bHasChanged = false ∧ 0 ≤ c.InputObjectNodeId
      · simpa [keepOrUploadComponents, hk, hkeep] using
          mem_keepOrUpload_out env i idx rest (j + 1) (ids ++ [c.InputObjectNodeId]) x
            (List.mem_append_left _ hx)
      · simpa [keepOrUploadComponents, hk, hkeep] using
          mem_keepOrUpload_out env i idx rest (j + 1) _ x
            (mem_uploadComp_out env (some i) (some c) ids x hx)

theorem mem_uploadLoop_out (env : HapiEnv) (i : UHoudiniInput) :
    ∀ (objs : List (Option UHoudiniInputObject)) (idx : Nat) (ids : List Int)
      (x : Int), x ∈ ids →
      x ∈ (uploadInputDataLoop env i objs idx ids).createdNodeIds
  | [], _, _, _, hx => hx
  | none :: rest, idx, ids, x, hx => by
    simpa [uploadInputDataLoop] using
      mem_uploadLoop_out env i rest (idx + 1) ids x hx
  | some o :: rest, idx, ids, x, hx => by
    by_cases hk : o.pendingKill
    · simpa [uploadInputDataLoop, hk] using
        mem_uploadLoop_out env i rest (idx + 1) ids x hx
    · by_cases hkeep : o.bHasChanged = false ∧ 0 ≤ o.InputObjectNodeId
      · by_cases hact : o.objType = EHoudiniInputObjectType.Actor
        · simpa [uploadInputDataLoop, hk, hkeep, hact] using
            mem_uploadLoop_out env i rest (idx + 1) _ x
              (mem_keepOrUpload_out env i idx o.ActorComponents 0 ids x hx)
        · simpa [uploadInputDataLoop, hk, hkeep, hact] using
            mem_uploadLoop_out env i rest (idx + 1) (ids ++ [o.InputObjectNodeId]) x
              (List.mem_append_left _ hx)
      · simpa [uploadInputDataLoop, hk, hkeep] using
          mem_uploadLoop_out env i rest (idx + 1) _ x
            (mem_uploadObj_out env (some i) (some o) ids x hx)

/-- One step of the component keep-or-upload loop: the results for a
non-empty list are those of the tail at index j+1 under a possibly extended
created-node list, with at most one additional leading event naming this
component index. -/
theorem keepOrUpload_step (env : HapiEnv) (i : UHoudiniInput) (idx : Nat)
    (c? : Option UHoudiniInputSceneComponent)
    (rest : List (Option UHoudiniInputSceneComponent)) (j0 : Nat) (ids : List Int) :
    ∃ ids2 ev,
      (keepOrUploadComponents env i idx (c? :: rest) j0 ids).createdNodeIds
        = (keepOrUploadComponents env i idx rest (j0 + 1) ids2).createdNodeIds
      ∧ (keepOrUploadComponents env i idx (c? :: rest) j0 ids).events
        = ev ++ (keepOrUploadComponents env i idx rest (j0 + 1) ids2).events
      ∧ (ev = [] ∨ ev = [UploadEvent.component idx j0])
      ∧ (∀ x ∈ ids, x ∈ ids2) := by
  rcases c? with _ | c
  · exact ⟨ids, [], by simp [keepOrUploadComponents], by simp [keepOrUploadComponents],
      Or.inl rfl, fun x hx => hx⟩
  by_cases hk : c.pendingKill
  · exact ⟨ids, [], by simp [keepOrUploadComponents, hk],
      by simp [keepOrUploadComponents, hk], Or.inl rfl, fun x hx => hx⟩
  by_cases hkeep : c.bHasChanged = false ∧ 0 ≤ c.InputObjectNodeId
  · exact ⟨ids ++ [c.InputObjectNodeId], [],
      by simp [keepOrUploadComponents, hk, hkeep],
      by simp [keepOrUploadComponents, hk, hkeep], Or.inl rfl,
      fun x hx => List.mem_append_left _ hx⟩
  · exact ⟨(UploadHoudiniInputObjectComp env (some i) (some c) ids).outCreatedNodeIds,
      [UploadEvent.component idx j0],
      by simp [keepOrUploadComponents, hk, hkeep],
      by simp [keepOrUploadComponents, hk, hkeep], Or.inr rfl,
      fun x hx => mem_uploadComp_out env (some i) (some c) ids x hx⟩

/-- Every event of the component loop names the surrounding actor index and a
component index at least the loop's start index. -/
theorem keepOrUpload_events_shape (env : HapiEnv) (i : UHoudiniInput) (idx : Nat) :
    ∀ (comps : List (Option UHoudiniInputSceneComponent)) (j0 : Nat) (ids : List Int),
      ∀ e ∈ (keepOrUploadComponents env i idx comps j0 ids).events,
        ∃ j2, e = UploadEvent.component idx j2 ∧ j0 ≤ j2
  | [], _, _, e, he => absurd he (by simp [keepOrUploadComponents])
  | c? :: rest, j0, ids, e, he => by
    obtain ⟨ids2, ev, _, hev, hevs, _⟩ := keepOrUpload_step env i idx c? rest j0 ids
    rw [hev] at he
    rcases List.mem_append.mp he with he | he
    · rcases hevs with h | h <;> subst h
      · simp at he
      · simp only [List.mem_singleton] at he
        exact ⟨j0, he, le_refl j0⟩
    · obtain ⟨j2, hj2, hle⟩ := keepOrUpload_events_shape env i idx rest (j0 + 1) ids2 e he
      exact ⟨j2, hj2, by omega⟩

/-- An unchanged component with a valid node id keeps its node id in the
created list and produces no upload event. -/
theorem keepOrUpload_keep (env : HapiEnv) (i : UHoudiniInput) (idx : Nat) :
    ∀ (comps : List (Option UHoudiniInputSceneComponent)) (j0 : Nat) (ids : List Int)
      (j : Nat) (c : UHoudiniInputSceneComponent),
      comps.get? j = some (some c) → c.pendingKill = false →
      c.bHasChanged = false → 0 ≤ c.InputObjectNodeId →
      c.InputObjectNodeId ∈ (keepOrUploadComponents env i idx comps j0 ids).createdNodeIds
      ∧ UploadEvent.component idx (j0 + j) ∉
          (keepOrUploadComponents env i idx comps j0 ids).events
  | [], _, _, j, _, hj, _, _, _ => by simp at hj
  | c? :: rest, j0, ids, 0, c, hj, hkc, hcc, hic => by
    simp only [List.get?_cons_zero, Option.some.injEq] at hj
    subst hj
    have hkeep : c.bHasChanged = false ∧ 0 ≤ c.InputObjectNodeId := ⟨hcc, hic⟩
    have hcr : (keepOrUploadComponents env i idx (some c :: rest) j0 ids).createdNodeIds
        = (keepOrUploadComponents env i idx rest (j0 + 1)
            (ids ++ [c.InputObjectNodeId])).createdNodeIds := by
      simp [keepOrUploadComponents, hkc, hkeep]
    have hev : (keepOrUploadComponents env i idx (some c :: rest) j0 ids).events
        = (keepOrUploadComponents env i idx rest (j0 + 1)
            (ids ++ [c.InputObjectNodeId])).events := by
      simp [keepOrUploadComponents, hkc, hkeep]
    constructor
    · rw [hcr]
      exact mem_keepOrUpload_out env i idx rest (j0 + 1) _ _
        (List.mem_append_right _ (by simp))
    · rw [hev]
      intro hmem
      obtain ⟨j2, hj2, hle⟩ := keepOrUpload_events_shape env i idx rest (j0 + 1) _ _ hmem
      injection hj2 with hj2a hj2b
      omega
  | c? :: rest, j0, ids, Nat.succ j, c, hj, hkc, hcc, hic => by
    simp only [List.get?_cons_succ] at hj
    obtain ⟨ids2, ev, hcr, hev, hevs, _⟩ := keepOrUpload_step env i idx c? rest j0 ids
    have ih := keepOrUpload_keep env i idx rest (j0 + 1) ids2 j c hj hkc hcc hic
    constructor
    · rw [hcr]
      exact ih.1
    · rw [hev]
      intro hmem
      rcases List.mem_append.mp hmem with hm | hm
      · rcases hevs with h | h <;> subst h
        · simp at hm
        · simp only [List.mem_singleton] at hm
          injection hm with hm1 hm2
          omega
      · have : UploadEvent.component idx (j0 + 1 + j) ∈
            (keepOrUploadComponents env i idx rest (j0 + 1) ids2).events := by
          rw [show j0 + 1 + j = j0 + Nat.succ j by omega]
          exact hm
        exact ih.2 this

/-- A changed or id-less component is uploaded: the loop records its event. -/
theorem keepOrUpload_uploaded (env : HapiEnv) (i : UHoudiniInput) (idx : Nat) :
    ∀ (comps : List (Option UHoudiniInputSceneComponent)) (j0 : Nat) (ids : List Int)
      (j : Nat) (c : UHoudiniInputSceneComponent),
      comps.get? j = some (some c) → c.pendingKill = false →
      (c.bHasChanged = true ∨ c.InputObjectNodeId < 0) →
      UploadEvent.component idx (j0 + j) ∈
        (keepOrUploadComponents env i idx comps j0 ids).events
  | [], _, _, j, _, hj, _, _ => by simp at hj
  | c? :: rest, j0, ids, 0, c, hj, hkc, hch => by
    simp only [List.get?_cons_zero, Option.some.injEq] at hj
    subst hj
    have hkeep : ¬(c.bHasChanged = false ∧ 0 ≤ c.InputObjectNodeId) := by
      rcases hch with h | h
      · intro hcon
        rw [h] at hcon
        exact absurd hcon.1 (by simp)
      · intro hcon
        omega
    have hev : (keepOrUploadComponents env i idx (some c :: rest) j0 ids).events
        = UploadEvent.component idx j0 ::
          (keepOrUploadComponents env i idx rest (j0 + 1)
            (UploadHoudiniInputObjectComp env (some i) (some c) ids).outCreatedNodeIds).events := by
      simp [keepOrUploadComponents, hkc, hkeep]
    rw [hev]
    exact List.mem_cons_self _ _
  | c? :: rest, j0, ids, Nat.succ j, c, hj, hkc, hch => by
    simp only [List.get?_cons_succ] at hj
    obtain ⟨ids2, ev, _, hev, _, _⟩ := keepOrUpload_step env i idx c? rest j0 ids
    rw [hev]
    apply List.mem_append_right
    rw [show j0 + Nat.succ j = j0 + 1 + j by omega]
    exact keepOrUpload_uploaded env i idx rest (j0 + 1) ids2 j c hj hkc hch

/-- One step of the object loop of UploadInputData: the results for a
non-empty array are those of the tail at index idx+1 under a possibly
extended created-node list, with leading events that all name this object
index. -/
theorem uploadLoop_step (env : HapiEnv) (i : UHoudiniInput)
    (o? : Option UHoudiniInputObject) (rest : List (Option UHoudiniInputObject))
    (idx : Nat) (ids : List Int) :
    ∃ ids2 ev x0,
      (uploadInputDataLoop env i (o? :: rest) idx ids).createdNodeIds
        = (uploadInputDataLoop env i rest (idx + 1) ids2).createdNodeIds
      ∧ (uploadInputDataLoop env i (o? :: rest) idx ids).events
        = ev ++ (uploadInputDataLoop env i rest (idx + 1) ids2).events
      ∧ (uploadInputDataLoop env i (o? :: rest) idx ids).objs
        = x0 :: (uploadInputDataLoop env i rest (idx + 1) ids2).objs
      ∧ (∀ e ∈ ev, UploadEvent.index e = idx)
      ∧ (∀ x ∈ ids, x ∈ ids2) := by
  rcases o? with _ | o
  · exact ⟨ids, [], none, by simp [uploadInputDataLoop], by simp [uploadInputDataLoop],
      by simp [uploadInputDataLoop], by simp, fun x hx => hx⟩
  by_cases hk : o.pendingKill
  · exact ⟨ids, [], some o, by simp [uploadInputDataLoop, hk],
      by simp [uploadInputDataLoop, hk], by simp [uploadInputDataLoop, hk],
      by simp, fun x hx => hx⟩
  by_cases hkeep : o.bHasChanged = false ∧ 0 ≤ o.InputObjectNodeId
  · by_cases hact : o.objType = EHoudiniInputObjectType.Actor
    · refine ⟨(keepOrUploadComponents env i idx o.ActorComponents 0 ids).createdNodeIds,
        (keepOrUploadComponents env i idx o.ActorComponents 0 ids).events,
        some { o with ActorComponents :=
          (keepOrUploadComponents env i idx o.ActorComponents 0 ids).comps },
        by simp [uploadInputDataLoop, hk, hkeep, hact],
        by simp [uploadInputDataLoop, hk, hkeep, hact],
        by simp [uploadInputDataLoop, hk, hkeep, hact], ?_,
        fun x hx => mem_keepOrUpload_out env i idx o.ActorComponents 0 ids x hx⟩
      intro e he
      obtain ⟨j2, hj2, _⟩ := keepOrUpload_events_shape env i idx o.ActorComponents 0 ids e he
      rw [hj2]
      rfl
    · exact ⟨ids ++ [o.InputObjectNodeId], [], some o,
        by simp [uploadInputDataLoop, hk, hkeep, hact],
        by simp [uploadInputDataLoop, hk, hkeep, hact],
        by simp [uploadInputDataLoop, hk, hkeep, hact],
        by simp, fun x hx => List.mem_append_left _ hx⟩
  · exact ⟨(UploadHoudiniInputObject env (some i) (some o) ids).outCreatedNodeIds,
      [UploadEvent.object idx],
      (UploadHoudiniInputObject env (some i) (some o) ids).obj,
      by simp [uploadInputDataLoop, hk, hkeep],
      by simp [uploadInputDataLoop, hk, hkeep],
      by simp [uploadInputDataLoop, hk, hkeep],
      by simp [UploadEvent.index],
      fun x hx => mem_uploadObj_out env (some i) (some o) ids x hx⟩

/-- Every event of the object loop refers to an object index at least the
loop's start index. -/
theorem uploadLoop_events_bound (env : HapiEnv) (i : UHoudiniInput) :
    ∀ (objs : List (Option UHoudiniInputObject)) (idx : Nat) (ids : List Int),
      ∀ e ∈ (uploadInputDataLoop env i objs idx ids).events, idx ≤ UploadEvent.index e
  | [], _, _, e, he => absurd he (by simp [uploadInputDataLoop])
  | o? :: rest, idx, ids, e, he => by
    obtain ⟨ids2, ev, x0, _, hev, _, hevs, _⟩ := uploadLoop_step env i o? rest idx ids
    rw [hev] at he
    rcases List.mem_append.mp he with he | he
    · exact le_of_eq (hevs e he).symm
    · have := uploadLoop_events_bound env i rest (idx + 1) ids2 e he
      omega

/-- C1 support: an unchanged non-actor object with a valid node id keeps its
node id, is untouched, and triggers no upload event for its index. -/
theorem uploadLoop_keep (env : HapiEnv) (i : UHoudiniInput) :
    ∀ (objs : List (Option UHoudiniInputObject)) (idx : Nat) (ids : List Int)
      (k : Nat) (o : UHoudiniInputObject),
      objs.get? k = some (some o) → o.pendingKill = false →
      o.bHasChanged = false → 0 ≤ o.InputObjectNodeId →
      o.objType ≠ EHoudiniInputObjectType.Actor →
      o.InputObjectNodeId ∈ (uploadInputDataLoop env i objs idx ids).createdNodeIds
      ∧ (∀ e ∈ (uploadInputDataLoop env i objs idx ids).events,
          UploadEvent.index e ≠ idx + k)
      ∧ (uploadInputDataLoop env i objs idx ids).objs.get? k = some (some o)
  | [], _, _, k, _, hj, _, _, _, _ => by simp at hj
  | o? :: rest, idx, ids, 0, o, hj, hk, hch, hid, hact => by
    simp only [List.get?_cons_zero, Option.some.injEq] at hj
    subst hj
    have hkeep : o.bHasChanged = false ∧ 0 ≤ o.InputObjectNodeId := ⟨hch, hid⟩
    have hcr : (uploadInputDataLoop env i (some o :: rest) idx ids).createdNodeIds
        = (uploadInputDataLoop env i rest (idx + 1)
            (ids ++ [o.InputObjectNodeId])).createdNodeIds := by
      simp [uploadInputDataLoop, hk, hkeep, hact]
    have hev : (uploadInputDataLoop env i (some o :: rest) idx ids).events
        = (uploadInputDataLoop env i rest (idx + 1)
            (ids ++ [o.InputObjectNodeId])).events := by
      simp [uploadInputDataLoop, hk, hkeep, hact]
    have hos : (uploadInputDataLoop env i (some o :: rest) idx ids).objs
        = some o :: (uploadInputDataLoop env i rest (idx + 1)
            (ids ++ [o.InputObjectNodeId])).objs := by
      simp [uploadInputDataLoop, hk, hkeep, hact]
    refine ⟨?_, ?_, ?_⟩
    · rw [hcr]
      exact mem_uploadLoop_out env i rest (idx + 1) _ _
        (List.mem_append_right _ (by simp))
    · rw [hev]
      intro e he
      have := uploadLoop_events_bound env i rest (idx + 1) _ e he
      omega
    · rw [hos]
      rfl
  | o? :: rest, idx, ids, Nat.succ k, o, hj, hk, hch, hid, hact => by
    simp only [List.get?_cons_succ] at hj
    obtain ⟨ids2, ev, x0, hcr, hev, hos, hevs, _⟩ := uploadLoop_step env i o? rest idx ids
    have ih := uploadLoop_keep env i rest (idx + 1) ids2 k o hj hk hch hid hact
    refine ⟨?_, ?_, ?_⟩
    · rw [hcr]
      exact ih.1
    · rw [hev]
      intro e he
      rcases List.mem_append.mp he with hm | hm
      · rw [hevs e hm]
        omega
      · have := ih.2.1 e hm
        omega
    · rw [hos]
      simpa using ih.2.2

/-- C1 support: a changed or id-less object is handed to
UploadHoudiniInputObject. -/
theorem uploadLoop_uploaded (env : HapiEnv) (i : UHoudiniInput) :
    ∀ (objs : List (Option UHoudiniInputObject)) (idx : Nat) (ids : List Int)
      (k : Nat) (o : UHoudiniInputObject),
      objs.get? k = some (some o) → o.pendingKill = false →
      (o.bHasChanged = true ∨ o.InputObjectNodeId < 0) →
      UploadEvent.object (idx + k) ∈ (uploadInputDataLoop env i objs idx ids).events
  | [], _, _, k, _, hj, _, _ => by simp at hj
  | o? :: rest, idx, ids, 0, o, hj, hk, hch => by
    simp only [List.get?_cons_zero, Option.some.injEq] at hj
    subst hj
    have hkeep : ¬(o.bHasChanged = false ∧ 0 ≤ o.InputObjectNodeId) := by
      rcases hch with h | h
      · intro hcon
        rw [h] at hcon
        exact absurd hcon.1 (by simp)
      · intro hcon
        omega
    have hev : (uploadInputDataLoop env i (some o :: rest) idx ids).events
        = UploadEvent.object idx ::
          (uploadInputDataLoop env i rest (idx + 1)
            (UploadHoudiniInputObject env (some i) (some o) ids).outCreatedNodeIds).events := by
      simp [uploadInputDataLoop, hk, hkeep]
    rw [hev]
    simp
  | o? :: rest, idx, ids, Nat.succ k, o, hj, hk, hch => by
    simp only [List.get?_cons_succ] at hj
    obtain ⟨ids2, ev, x0, _, hev, _, _, _⟩ := uploadLoop_step env i o? rest idx ids
    rw [hev]
    apply List.mem_append_right
    rw [show idx + Nat.succ k = idx + 1 + k by omega]
    exact uploadLoop_uploaded env i rest (idx + 1) ids2 k o hj hk hch

/-- C1 support: for an unchanged actor object with a valid node id the
keep-or-upload rule is applied per contained component. -/
theorem uploadLoop_actor (env : HapiEnv) (i : UHoudiniInput) :
    ∀ (objs : List (Option UHoudiniInputObject)) (idx : Nat) (ids : List Int)
      (k : Nat) (o : UHoudiniInputObject),
      objs.get? k = some (some o) → o.pendingKill = false →
      o.bHasChanged = false → 0 ≤ o.InputObjectNodeId →
      o.objType = EHoudiniInputObjectType.Actor →
      ∀ (j : Nat) (c : UHoudiniInputSceneComponent),
        o.ActorComponents.get? j = some (some c) → c.pendingKill = false →
        ((c.bHasChanged = false → 0 ≤ c.InputObjectNodeId →
            c.InputObjectNodeId ∈ (uploadInputDataLoop env i objs idx ids).createdNodeIds
            ∧ UploadEvent.component (idx + k) j ∉
                (uploadInputDataLoop env i objs idx ids).events)
          ∧ ((c.bHasChanged = true ∨ c.InputObjectNodeId < 0) →
              UploadEvent.component (idx + k) j ∈
                (uploadInputDataLoop env i objs idx ids).events))
  | [], _, _, k, _, hj, _, _, _, _ => by simp at hj
  | o? :: rest, idx, ids, 0, o, hj, hk, hch, hid, hact => by
    simp only [List.get?_cons_zero, Option.some.injEq] at hj
    subst hj
    intro j c hcj hkc
    have hkeep : o.bHasChanged = false ∧ 0 ≤ o.InputObjectNodeId := ⟨hch, hid⟩
    have hcr : (uploadInputDataLoop env i (some o :: rest) idx ids).createdNodeIds
        = (uploadInputDataLoop env i rest (idx + 1)
            (keepOrUploadComponents env i idx o.ActorComponents 0 ids).createdNodeIds).createdNodeIds := by
      simp [uploadInputDataLoop, hk, hkeep, hact]
    have hev : (uploadInputDataLoop env i (some o :: rest) idx ids).events
        = (keepOrUploadComponents env i idx o.ActorComponents 0 ids).events
          ++ (uploadInputDataLoop env i rest (idx + 1)
            (keepOrUploadComponents env i idx o.ActorComponents 0 ids).createdNodeIds).events := by
      simp [uploadInputDataLoop, hk, hkeep, hact]
    constructor
    · intro hcc hic
      have hkeepc := keepOrUpload_keep env i idx o.ActorComponents 0 ids j c hcj hkc hcc hic
      constructor
      · rw [hcr]
        exact mem_uploadLoop_out env i rest (idx + 1) _ _ hkeepc.1
      · rw [hev]
        intro hmem
        rcases List.mem_append.mp hmem with hm | hm
        · have : UploadEvent.component idx (0 + j) ∈
              (keepOrUploadComponents env i idx o.ActorComponents 0 ids).events := by
            rw [show (0 : Nat) + j = j by omega]
            simpa using hm
          exact hkeepc.2 this
        · have := uploadLoop_events_bound env i rest (idx + 1) _ _ hm
          simp only [UploadEvent.index] at this
          omega
    · intro hch2
      rw [hev]
      apply List.mem_append_left
      have := keepOrUpload_uploaded env i idx o.ActorComponents 0 ids j c hcj hkc hch2
      rw [show (0 : Nat) + j = j by omega] at this
      simpa using this
  | o? :: rest, idx, ids, Nat.succ k, o, hj, hk, hch, hid, hact => by
    simp only [List.get?_cons_succ] at hj
    intro j c hcj hkc
    obtain ⟨ids2, ev, x0, hcr, hev, _, hevs, _⟩ := uploadLoop_step env i o? rest idx ids
    have ih := uploadLoop_actor env i rest (idx + 1) ids2 k o hj hk hch hid hact j c hcj hkc
    constructor
    · intro hcc hic
      have ihk := ih.1 hcc hic
      constructor
      · rw [hcr]
        exact ihk.1
      · rw [hev]
        intro hmem
        rcases List.mem_append.mp hmem with hm | hm
        · have := hevs _ hm
          simp only [UploadEvent.index] at this
          omega
        · have : UploadEvent.component (idx + 1 + k) j ∈
              (uploadInputDataLoop env i rest (idx + 1) ids2).events := by
            rw [show idx + 1 + k = idx + Nat.succ k by omega]
            exact hm
          exact ihk.2 this
    · intro hch2
      rw [hev]
      apply List.mem_append_right
      rw [show idx + Nat.succ k = idx + 1 + k by omega]
      exact ih.2 hch2

theorem UploadInputData_loop_fields (env : HapiEnv) (i : UHoudiniInput)
    (sess : Session) (objs : List (Option UHoudiniInputObject))
    (hkill : i.pendingKill = false)
    (hGet : GetHoudiniInputObjectArray i i.InputType = some objs) :
    (UploadInputData env (some i) sess).createdNodeIds
      = (uploadInputDataLoop env i objs 0 []).createdNodeIds
    ∧ (UploadInputData env (some i) sess).events
      = (uploadInputDataLoop env i objs 0 []).events := by
  simp only [UploadInputData, hkill, hGet]
  split_ifs <;> first | exact ⟨rfl, rfl⟩ | simp_all

/-- C1: incremental re-upload in UploadInputData.  An input object that is
not marked changed and has a valid created node id is not handed to
UploadHoudiniInputObject (no upload event names its index) and its existing
node id is kept in the created-node list that gets connected to the input's
merge node; an object that is marked changed or has no valid node id is
uploaded; and for Actor input objects the same rule is applied per contained
component. -/
theorem C1_incremental_reupload (env : HapiEnv) (i : UHoudiniInput) (sess : Session)
    (hkill : i.pendingKill = false) (objs : List (Option UHoudiniInputObject))
    (hGet : GetHoudiniInputObjectArray i i.InputType = some objs) :
    (∀ k o, objs.get? k = some (some o) → o.pendingKill = false →
      o.bHasChanged = false → 0 ≤ o.InputObjectNodeId →
      o.objType ≠ EHoudiniInputObjectType.Actor →
      o.InputObjectNodeId ∈ (UploadInputData env (some i) sess).createdNodeIds
      ∧ (∀ e ∈ (UploadInputData env (some i) sess).events, UploadEvent.index e ≠ k))
    ∧ (∀ k o, objs.get? k = some (some o) → o.pendingKill = false →
        (o.bHasChanged = true ∨ o.InputObjectNodeId < 0) →
        UploadEvent.object k ∈ (UploadInputData env (some i) sess).events)
    ∧ (∀ k o, objs.get? k = some (some o) → o.pendingKill = false →
        o.bHasChanged = false → 0 ≤ o.InputObjectNodeId →
        o.objType = EHoudiniInputObjectType.Actor →
        ∀ j c, o.ActorComponents.get? j = some (some c) → c.pendingKill = false →
          ((c.bHasChanged = false → 0 ≤ c.InputObjectNodeId →
              c.InputObjectNodeId ∈ (UploadInputData env (some i) sess).createdNodeIds
              ∧ UploadEvent.component k j ∉ (UploadInputData env (some i) sess).events)
            ∧ ((c.bHasChanged = true ∨ c.InputObjectNodeId < 0) →
                UploadEvent.component k j ∈ (UploadInputData env (some i) sess).events))) := by
  obtain ⟨hcr, hev⟩ := UploadInputData_loop_fields env i sess objs hkill hGet
  rw [hcr, hev]
  refine ⟨?_, ?_, ?_⟩
  · intro k o hk2 h1 h2 h3 h4
    have := uploadLoop_keep env i objs 0 [] k o hk2 h1 h2 h3 h4
    refine ⟨this.1, ?_⟩
    intro e he
    have h5 := this.2.1 e he
    omega
  · intro k o hk2 h1 h2
    have := uploadLoop_uploaded env i objs 0 [] k o hk2 h1 h2
    simpa using this
  · intro k o hk2 h1 h2 h3 h4 j c hcj hkc
    have := uploadLoop_actor env i objs 0 [] k o hk2 h1 h2 h3 h4 j c hcj hkc
    simpa using this

/-- An unchanged static-mesh input object with a valid created node id. -/
def sampleObjKeep : UHoudiniInputObject where
  objType := EHoudiniInputObjectType.StaticMesh
  InputNodeId := 5
  InputObjectNodeId := 6
  bHasChanged := false
  bTransformChanged := false
  bNeedsToTriggerUpdate := false
  pendingKill := false
  hasObject := true
  actorIsHoudiniAssetActor := false
  bIsBlueprint := false
  BlueprintStaticMeshes := []
  ActorComponents := []
  curveComponentNodeId := none

/-- A geometry input holding the unchanged sample object. -/
def sampleInput2 : UHoudiniInput :=
  { sampleInput1 with objectArrays := { emptyArrays with geometry := [some sampleObjKeep] } }

/-- Witness for C1: on the concrete input the kept object's node id 6 ends up
in the created-node list. -/
theorem C1_incremental_reupload_witness :
    sampleObjKeep.InputObjectNodeId
      ∈ (UploadInputData sampleEnv (some sampleInput2) sampleSess).createdNodeIds :=
  ((C1_incremental_reupload sampleEnv sampleInput2 sampleSess rfl [some sampleObjKeep]
      rfl).1 0 sampleObjKeep rfl rfl rfl (by decide) (by decide)).1

/- ### Transform synchronization: UploadInputTransform (lines 1111-1143) and
   UploadHoudiniInputTransform (lines 1398-1628). -/

/-- UploadHoudiniInputTransform applied to an actor-contained component (the
recursive call at line 1495).  A scene component carries one of the component
object types; for the remaining switch cases the involved cast of a scene
component fails where one is needed (Actor, Landscape) or the case only
breaks. -/
def UploadHoudiniInputTransformComp (env : HapiEnv) (inInput : Option UHoudiniInput)
    (c? : Option UHoudiniInputSceneComponent) :
    Bool × Option UHoudiniInputSceneComponent :=
  match inInput, c? with
  | none, c => (false, c)
  | some _, none => (false, none)
  | some _, some c =>
    let step : Bool × UHoudiniInputSceneComponent :=
      match c.objType with
      | EHoudiniInputObjectType.StaticMeshComponent =>
        if c.pendingKill then (false, c)
        -- the transform is refreshed from the component and uploaded
        else (env.setObjectTransformOk c.InputObjectNodeId, c)
      | EHoudiniInputObjectType.SceneComponent =>
        -- only the cached transform is refreshed
        if c.pendingKill then (false, c) else (true, c)
      | EHoudiniInputObjectType.Actor => (false, c)
      | EHoudiniInputObjectType.Landscape => (false, c)
      | _ => (true, c)
    if step.1 then
      (true, some { step.2 with bTransformChanged := false, bNeedsToTriggerUpdate := false })
    else
      (false, some { step.2 with bNeedsToTriggerUpdate := false })

/-- The component sub-loop of the Actor case of UploadHoudiniInputTransform
(lines 1486-1500): only components whose transform-changed flag is set are
uploaded. -/
def uploadActorTransforms (env : HapiEnv) (i : UHoudiniInput) :
    List (Option UHoudiniInputSceneComponent) →
    List (Option UHoudiniInputSceneComponent) × Bool
  | [] => ([], true)
  | none :: rest =>
    let rr := uploadActorTransforms env i rest
    (none :: rr.1, rr.2)
  | some c :: rest =>
    if c.pendingKill then
      let rr := uploadActorTransforms env i rest
      (some c :: rr.1, rr.2)
    else if c.bTransformChanged = false then
      let rr := uploadActorTransforms env i rest
      (some c :: rr.1, rr.2)
    else
      let u := UploadHoudiniInputTransformComp env (some i) (some c)
      let rr := uploadActorTransforms env i rest
      (u.2 :: rr.1, u.1 && rr.2)

/-- FHoudiniInputTranslator::UploadHoudiniInputTransform (lines 1398-1628):
uploads one input object's transform and updates its flags.  Note the
Landscape case falls through into the (empty) Brush case in the source, which
changes nothing. -/
def UploadHoudiniInputTransform (env : HapiEnv) (inInput : Option UHoudiniInput)
    (o? : Option UHoudiniInputObject) : Bool × Option UHoudiniInputObject :=
  match inInput, o? with
  | none, o => (false, o)
  | some _, none => (false, none)
  | some i, some o =>
    let step : Bool × UHoudiniInputObject :=
      match o.objType with
      | EHoudiniInputObjectType.StaticMesh =>
        -- simply update the input mesh's transform offset
        (env.setObjectTransformOk o.InputObjectNodeId, o)
      | EHoudiniInputObjectType.StaticMeshComponent =>
        if o.pendingKill then (false, o)
        else (env.setObjectTransformOk o.InputObjectNodeId, o)
      | EHoudiniInputObjectType.InstancedStaticMeshComponent => (true, o)
      | EHoudiniInputObjectType.HoudiniSplineComponent => (true, o)
      | EHoudiniInputObjectType.HoudiniAssetActor => (true, o)
      | EHoudiniInputObjectType.HoudiniAssetComponent => (true, o)
      | EHoudiniInputObjectType.Actor =>
        if o.pendingKill then (false, o)
        else
          -- cache the actor transform, then upload the changed components
          let ra := uploadActorTransforms env i o.ActorComponents
          (ra.2, { o with ActorComponents := ra.1 })
      | EHoudiniInputObjectType.SceneComponent =>
        if o.pendingKill then (false, o) else (true, o)
      | EHoudiniInputObjectType.Landscape =>
        if o.pendingKill then (false, o)
        else if o.hasObject = false then (false, o)
        else if env.getObjectTransformOk o.InputObjectNodeId = false then (false, o)
        else if env.setObjectTransformOk o.InputObjectNodeId = false then (false, o)
        else (true, o)
      | EHoudiniInputObjectType.Brush => (true, o)
      | EHoudiniInputObjectType.FoliageType_InstancedStaticMesh =>
        (env.setObjectTransformOk o.InputObjectNodeId, o)
      -- unsupported types and the default case just break
      | EHoudiniInputObjectType.Object => (true, o)
      | EHoudiniInputObjectType.SkeletalMesh => (true, o)
      | EHoudiniInputObjectType.SplineComponent => (true, o)
      | EHoudiniInputObjectType.CameraComponent => (true, o)
      | EHoudiniInputObjectType.DataTable => (true, o)
      | EHoudiniInputObjectType.Invalid => (true, o)
    -- mark the object's transform as not changed on success; in both cases
    -- prevent it from triggering further updates
    if step.1 then
      (true, some { step.2 with bTransformChanged := false, bNeedsToTriggerUpdate := false })
    else
      (false, some { step.2 with bNeedsToTriggerUpdate := false })

/-- The object loop of UploadInputTransform (lines 1122-1140): objects whose
transform-changed flag is not set are skipped; the loop records the indices of
the objects it uploads. -/
def uploadTransformLoop (env : HapiEnv) (i : UHoudiniInput) :
    List (Option UHoudiniInputObject) → Nat →
    List (Option UHoudiniInputObject) × Bool × List Nat
  | [], _ => ([], true, [])
  | none :: rest, k =>
    let rr := uploadTransformLoop env i rest (k + 1)
    (none :: rr.1, rr.2)
  | some o :: rest, k =>
    if o.pendingKill then
      let rr := uploadTransformLoop env i rest (k + 1)
      (some o :: rr.1, rr.2)
    else if o.bTransformChanged = false then
      let rr := uploadTransformLoop env i rest (k + 1)
      (some o :: rr.1, rr.2)
    else
      let u := UploadHoudiniInputTransform env (some i) (some o)
      let rr := uploadTransformLoop env i rest (k + 1)
      (u.2 :: rr.1, u.1 && rr.2.1, k :: rr.2.2)

/-- Result of UploadInputTransform. -/
structure UploadTransformResult where
  success : Bool
  input : Option UHoudiniInput
  uploadedIdx : List Nat
deriving DecidableEq, Repr

/-- FHoudiniInputTranslator::UploadInputTransform (lines 1111-1143). -/
def UploadInputTransform (env : HapiEnv) (inInput : Option UHoudiniInput) :
    UploadTransformResult :=
  match inInput with
  | none => ⟨false, none, []⟩
  | some i =>
    if i.pendingKill then ⟨false, some i, []⟩
    else
      match GetHoudiniInputObjectArray i i.InputType with
      | none => ⟨false, some i, []⟩
      | some objs =>
        let lr := uploadTransformLoop env i objs 0
        ⟨lr.2.1, some (setHoudiniInputObjectArray i i.InputType lr.1), lr.2.2⟩

theorem uploadTransformLoop_idx_bound (env : HapiEnv) (i : UHoudiniInput) :
    ∀ (objs : List (Option UHoudiniInputObject)) (k0 : Nat),
      ∀ k2 ∈ (uploadTransformLoop env i objs k0).2.2, k0 ≤ k2
  | [], _, k2, hm => absurd hm (by simp [uploadTransformLoop])
  | none :: rest, k0, k2, hm => by
    have := uploadTransformLoop_idx_bound env i rest (k0 + 1) k2
      (by simpa [uploadTransformLoop] using hm)
    omega
  | some o :: rest, k0, k2, hm => by
    by_cases hk : o.pendingKill
    · have := uploadTransformLoop_idx_bound env i rest (k0 + 1) k2
        (by simpa [uploadTransformLoop, hk] using hm)
      omega
    · by_cases htc : o.bTransformChanged = false
      · have := uploadTransformLoop_idx_bound env i rest (k0 + 1) k2
          (by simpa [uploadTransformLoop, hk, htc] using hm)
        omega
      · rcases (by simpa [uploadTransformLoop, hk, htc] using hm :
            k2 = k0 ∨ k2 ∈ (uploadTransformLoop env i rest (k0 + 1)).2.2) with h | h
        · omega
        · have := uploadTransformLoop_idx_bound env i rest (k0 + 1) k2 h
          omega

theorem uploadTransformLoop_skip (env : HapiEnv) (i : UHoudiniInput) :
    ∀ (objs : List (Option UHoudiniInputObject)) (k0 : Nat) (k : Nat)
      (o : UHoudiniInputObject),
      objs.get? k = some (some o) → o.pendingKill = false →
      o.bTransformChanged = false →
      (uploadTransformLoop env i objs k0).1.get? k = some (some o)
      ∧ (k0 + k) ∉ (uploadTransformLoop env i objs k0).2.2
  | [], _, k, _, hj, _, _ => by simp at hj
  | o? :: rest, k0, 0, o, hj, hk, htc => by
    simp only [List.get?_cons_zero, Option.some.injEq] at hj
    subst hj
    constructor
    · simp [uploadTransformLoop, hk, htc]
    · intro hmem
      have hmem2 : k0 + 0 ∈ (uploadTransformLoop env i rest (k0 + 1)).2.2 := by
        simpa [uploadTransformLoop, hk, htc] using hmem
      have := uploadTransformLoop_idx_bound env i rest (k0 + 1) _ hmem2
      omega
  | o? :: rest, k0, Nat.succ k, o, hj, hk, htc => by
    simp only [List.get?_cons_succ] at hj
    have ih := uploadTransformLoop_skip env i rest (k0 + 1) k o hj hk htc
    have harith : k0 + 1 + k = k0 + Nat.succ k := by omega
    rcases o? with _ | o0
    · refine ⟨by simpa [uploadTransformLoop] using ih.1, ?_⟩
      intro hmem
      apply ih.2
      rw [harith]
      simpa [uploadTransformLoop] using hmem
    · by_cases hk0 : o0.pendingKill
      · refine ⟨by simpa [uploadTransformLoop, hk0] using ih.1, ?_⟩
        intro hmem
        apply ih.2
        rw [harith]
        simpa [uploadTransformLoop, hk0] using hmem
      · by_cases htc0 : o0.bTransformChanged = false
        · refine ⟨by simpa [uploadTransformLoop, hk0, htc0] using ih.1, ?_⟩
          intro hmem
          apply ih.2
          rw [harith]
          simpa [uploadTransformLoop, hk0, htc0] using hmem
        · refine ⟨by simpa [uploadTransformLoop, hk0, htc0] using ih.1, ?_⟩
          intro hmem
          have hmem2 : k0 + Nat.succ k = k0 ∨
              k0 + Nat.succ k ∈ (uploadTransformLoop env i rest (k0 + 1)).2.2 := by
            simpa [uploadTransformLoop, hk0, htc0] using hmem
          rcases hmem2 with h | h
          · omega
          · apply ih.2
            rw [harith]
            exact h
set_option maxHeartbeats 1600000 in
/-- C3: transform synchronization.  UploadInputTransform uploads a transform
only for input objects whose transform-changed flag is set — an object with an
unchanged transform is skipped and left untouched — and
UploadHoudiniInputTransform clears an object's transform-changed flag exactly
when its upload succeeds, while clearing the needs-to-trigger-update flag in
both the success and the failure case. -/
theorem C3_transform_synchronization (env : HapiEnv) (i : UHoudiniInput)
    (hkill : i.pendingKill = false) (objs : List (Option UHoudiniInputObject))
    (hGet : GetHoudiniInputObjectArray i i.InputType = some objs) :
    (∀ k o, objs.get? k = some (some o) → o.pendingKill = false →
      o.bTransformChanged = false →
      k ∉ (UploadInputTransform env (some i)).uploadedIdx
      ∧ (∀ i2, (UploadInputTransform env (some i)).input = some i2 →
          ∃ objs2, GetHoudiniInputObjectArray i2 i.InputType = some objs2
            ∧ objs2.get? k = some (some o)))
    ∧ (∀ o o2 : UHoudiniInputObject,
        (UploadHoudiniInputTransform env (some i) (some o)).2 = some o2 →
        o2.bTransformChanged
          = (if (UploadHoudiniInputTransform env (some i) (some o)).1 then false
             else o.bTransformChanged)
        ∧ o2.bNeedsToTriggerUpdate = false) := by
  constructor
  · intro k o hko hpk htc
    have htinv : i.InputType ≠ EHoudiniInputType.Invalid := by
      intro h
      rw [h] at hGet
      simp [GetHoudiniInputObjectArray] at hGet
    have hskip := uploadTransformLoop_skip env i objs 0 k o hko hpk htc
    have hred : UploadInputTransform env (some i)
        = ⟨(uploadTransformLoop env i objs 0).2.1,
           some (setHoudiniInputObjectArray i i.InputType (uploadTransformLoop env i objs 0).1),
           (uploadTransformLoop env i objs 0).2.2⟩ := by
      simp [UploadInputTransform, hkill, hGet]
    rw [hred]
    constructor
    · intro hmem
      exact hskip.2 (by simpa using hmem)
    · intro i2 hi2
      injection hi2 with hi2
      subst hi2
      exact ⟨_, setHoudiniInputObjectArray_get _ _ _ htinv, hskip.1⟩
  · intro o o2 ho2
    revert ho2
    cases hot : o.objType <;>
      (simp only [UploadHoudiniInputTransform, hot]
       split_ifs <;> intro ho2 <;> injection ho2 with ho2 <;> subst ho2 <;> simp_all)

/-- Witness for C3: on the concrete input the unchanged-transform object at
index 0 is not uploaded. -/
theorem C3_transform_synchronization_witness :
    (0 : Nat) ∉ (UploadInputTransform sampleEnv (some sampleInput2)).uploadedIdx :=
  ((C3_transform_synchronization sampleEnv sampleInput2 rfl [some sampleObjKeep]
      rfl).1 0 sampleObjKeep rfl rfl rfl).1

/- ### UploadChangedInputs (lines 676-731), UpdateInputProperties
   (lines 733-743), ChangeInputType (lines 521-546). -/

/-- FHoudiniInputTranslator::UpdateTransformType (lines 746-816): fails on a
null or pending-kill input; otherwise it only sets xformtype parameters in
the session and never modifies the input, so its success comes from the
oracle. -/
def UpdateTransformType (env : HapiEnv) (inInput : Option UHoudiniInput) : Bool :=
  match inInput with
  | none => false
  | some i => if i.pendingKill then false else env.updateTransformTypeOk i

/-- FHoudiniInputTranslator::UpdatePackBeforeMerge (lines 819-869): same
abstraction as UpdateTransformType. -/
def UpdatePackBeforeMerge (env : HapiEnv) (inInput : Option UHoudiniInput) : Bool :=
  match inInput with
  | none => false
  | some i => if i.pendingKill then false else env.updatePackBeforeMergeOk i

/-- FHoudiniInputTranslator::UpdateTransformOffset (lines 872-913): same
abstraction. -/
def UpdateTransformOffset (env : HapiEnv) (inInput : Option UHoudiniInput) : Bool :=
  match inInput with
  | none => false
  | some i => if i.pendingKill then false else env.updateTransformOffsetOk i

/-- FHoudiniInputTranslator::UpdateInputProperties (lines 733-743). -/
def UpdateInputProperties (env : HapiEnv) (inInput : Option UHoudiniInput) : Bool :=
  UpdateTransformType env inInput
    && UpdatePackBeforeMerge env inInput
    && UpdateTransformOffset env inInput

/-- Modelled from the spec: UHoudiniInput::MarkAllInputObjectsChanged marks
every input object of every per-type array — and, for actor objects, their
contained components — as changed or unchanged. -/
def markObjChanged (b : Bool) (o : UHoudiniInputObject) : UHoudiniInputObject :=
  { o with bHasChanged := b,
           ActorComponents := o.ActorComponents.map
             (fun c? => c?.map (fun c => { c with bHasChanged := b })) }

/-- Marking one object array. -/
def markArrChanged (b : Bool) (l : List (Option UHoudiniInputObject)) :
    List (Option UHoudiniInputObject) :=
  l.map (fun o? => o?.map (markObjChanged b))

/-- Modelled from the spec: UHoudiniInput::MarkAllInputObjectsChanged. -/
def MarkAllInputObjectsChanged (i : UHoudiniInput) (b : Bool) : UHoudiniInput :=
  { i with objectArrays :=
      { geometry := markArrChanged b i.objectArrays.geometry,
        curve := markArrChanged b i.objectArrays.curve,
        asset := markArrChanged b i.objectArrays.asset,
        landscape := markArrChanged b i.objectArrays.landscape,
        world := markArrChanged b i.objectArrays.world,
        skeletal := markArrChanged b i.objectArrays.skeletal } }

/-- FHoudiniInputTranslator::ChangeInputType (lines 521-546): when a type
switch is pending (or forced), the previous input type's nodes are
disconnected and destroyed and all input objects are marked changed. -/
def ChangeInputType (env : HapiEnv) (inInput : Option UHoudiniInput)
    (bForce : Bool) (sess : Session) : Bool × Option UHoudiniInput × Session :=
  match inInput with
  | none => (false, none, sess)
  | some i =>
    if i.pendingKill then (false, some i, sess)
    else if i.HasInputTypeChanged = false ∧ bForce = false then (true, some i, sess)
    else
      let d := DisconnectAndDestroyInput env (some i) i.PreviousInputType sess
      match d.2.1 with
      | none => (true, none, d.2.2)
      | some i1 => (true, some (MarkAllInputObjectsChanged i1 true), d.2.2)

/-- Result of processing one changed input in UploadChangedInputs, with the
outcome of the data upload (none when no data upload was needed) and of the
final properties update recorded. -/
structure ProcessChangedResult where
  input : UHoudiniInput
  sess : Session
  dataUploadOk : Option Bool
  propsOk : Bool
deriving DecidableEq, Repr

/-- Lines 690-693 of UploadChangedInputs: see if the input type needs to be
changed first. -/
def pciTypeChange (env : HapiEnv) (p : UHoudiniInput × Session) :
    UHoudiniInput × Session :=
  if p.1.HasInputTypeChanged then
    let c := ChangeInputType env (some p.1) false p.2
    (c.2.1.getD p.1, c.2.2)
  else p

/-- Lines 695-700: handle a changed landscape export type. -/
def pciLandscape (env : HapiEnv) (p : UHoudiniInput × Session) :
    UHoudiniInput × Session :=
  if p.1.InputType = EHoudiniInputType.Landscape ∧ p.1.bLandscapeExportTypeChanged then
    let d := DisconnectAndDestroyInput env (some p.1) p.1.InputType p.2
    ({ MarkAllInputObjectsChanged (d.2.1.getD p.1) true with
        bLandscapeExportTypeChanged := false }, d.2.2)
  else p

/-- Lines 702-707: upload the input data when needed, recording a failure in
the data-upload-needed flag (MarkDataUploadNeeded(!bSuccess)); the third
component records the upload outcome (none when no upload was needed). -/
def pciDataUpload (env : HapiEnv) (p : UHoudiniInput × Session) :
    UHoudiniInput × Session × Option Bool :=
  if p.1.bDataUploadNeeded then
    let u := UploadInputData env (some p.1) p.2
    ({ u.input.getD p.1 with bDataUploadNeeded := !u.success }, u.sess, some u.success)
  else (p.1, p.2, none)

/-- Lines 709-712: upload the input transform when needed (its success is
and-accumulated into bSuccess, which the next assignment overwrites). -/
def pciTransformUpload (env : HapiEnv) (i : UHoudiniInput) : UHoudiniInput :=
  if i.bTransformUploadNeeded then (UploadInputTransform env (some i)).input.getD i
  else i

/-- The body of the UploadChangedInputs loop for one non-null, not
pending-kill, changed input (lines 689-727).  Note that line 715 assigns —
not and-accumulates — the result of UpdateInputProperties into bSuccess, so
the upload outcomes gathered before are discarded at that point. -/
def processChangedInput (env : HapiEnv) (i0 : UHoudiniInput) (sess0 : Session) :
    ProcessChangedResult :=
  let p1 := pciTypeChange env (i0, sess0)
  let p2 := pciLandscape env p1
  let p3 := pciDataUpload env p2
  let i4 := pciTransformUpload env p3.1
  -- update the input properties AFTER eventually uploading; the assignment
  -- overwrites the accumulated success flag
  let propsOk := UpdateInputProperties env (some i4)
  let i5 :=
    if propsOk then MarkAllInputObjectsChanged { i4 with bHasChanged := false } false
    else i4
  -- the input type switch has been handled
  let i6 :=
    if i5.HasInputTypeChanged then { i5 with PreviousInputType := EHoudiniInputType.Invalid }
    else i5
  -- even if we failed, no need to try updating again
  ⟨{ i6 with bNeedsToTriggerUpdate := false }, p3.2.1, p3.2.2, propsOk⟩

/-- The loop of UploadChangedInputs over the component's inputs. -/
def uploadChangedLoop (env : HapiEnv) :
    List (Option UHoudiniInput) → Session → List (Option UHoudiniInput) × Session
  | [], sess => ([], sess)
  | none :: rest, sess =>
    let rr := uploadChangedLoop env rest sess
    (none :: rr.1, rr.2)
  | some i :: rest, sess =>
    if i.pendingKill then
      let rr := uploadChangedLoop env rest sess
      (some i :: rr.1, rr.2)
    else if i.bHasChanged = false then
      let rr := uploadChangedLoop env rest sess
      (some i :: rr.1, rr.2)
    else
      let p := processChangedInput env i sess
      let rr := uploadChangedLoop env rest p.sess
      (some p.input :: rr.1, rr.2)

/-- EWorldType of the host engine. -/
inductive EWorldType
  | None
  | Game
  | Editor
  | PIE
  | EditorPreview
  | GamePreview
  | Inactive
deriving DecidableEq, Repr

/-- The owning actor of an asset component, restricted to the world the
editor gate of UpdateWorldInputs reads; world = none models a null
GetWorld(). -/
structure AActor where
  world : Option EWorldType
deriving DecidableEq, Repr

/-- UHoudiniAssetComponent, restricted to the state the input translator
reads; owner = none models a component without owning actor. -/
structure UHoudiniAssetComponent where
  pendingKill : Bool
  AssetId : Int
  Inputs : List (Option UHoudiniInput)
  owner : Option AActor
deriving DecidableEq, Repr

/-- FHoudiniInputTranslator::UploadChangedInputs (lines 676-731). -/
def UploadChangedInputs (env : HapiEnv) (hac : Option UHoudiniAssetComponent)
    (sess : Session) : Bool × Option UHoudiniAssetComponent × Session :=
  match hac with
  | none => (false, none, sess)
  | some h =>
    if h.pendingKill then (false, some h, sess)
    else
      let r := uploadChangedLoop env h.Inputs sess
      (true, some { h with Inputs := r.1 }, r.2)

/- ### Flag-preservation lemmas towards C6 -/

theorem setArr_flags (i : UHoudiniInput) (t : EHoudiniInputType)
    (objs : List (Option UHoudiniInputObject)) :
    (setHoudiniInputObjectArray i t objs).bHasChanged = i.bHasChanged
    ∧ (setHoudiniInputObjectArray i t objs).bDataUploadNeeded = i.bDataUploadNeeded := by
  cases t <;> exact ⟨rfl, rfl⟩

theorem DisconnectInput_shape (i : UHoudiniInput) (t : EHoudiniInputType) (s : Session) :
    ∃ b i1 s1, DisconnectInput (some i) t s = (b, some i1, s1)
      ∧ i1.bHasChanged = i.bHasChanged
      ∧ i1.bDataUploadNeeded = i.bDataUploadNeeded := by
  simp only [DisconnectInput]
  split_ifs <;> exact ⟨_, _, _, rfl, rfl, rfl⟩

theorem DestroyInputNodes_shape (env : HapiEnv) (i : UHoudiniInput)
    (t : EHoudiniInputType) (s : Session) :
    ∃ b i1 s1, DestroyInputNodes env (some i) t s = (b, some i1, s1)
      ∧ i1.bHasChanged = i.bHasChanged
      ∧ i1.bDataUploadNeeded = i.bDataUploadNeeded := by
  cases hG : GetHoudiniInputObjectArray i t <;>
    simp only [DestroyInputNodes, hG] <;>
    split_ifs <;>
    first
      | exact ⟨_, _, _, rfl, rfl, rfl⟩
      | exact ⟨_, _, _, rfl, (setArr_flags i t _).1, (setArr_flags i t _).2⟩

theorem DisconnectAndDestroyInput_shape (env : HapiEnv) (i : UHoudiniInput)
    (t : EHoudiniInputType) (s : Session) :
    ∃ b i1 s1, DisconnectAndDestroyInput env (some i) t s = (b, some i1, s1)
      ∧ i1.bHasChanged = i.bHasChanged
      ∧ i1.bDataUploadNeeded = i.bDataUploadNeeded := by
  obtain ⟨b1, j1, s1, h1, hf1, hf2⟩ := DisconnectInput_shape i t s
  obtain ⟨b2, j2, s2, h2, hg1, hg2⟩ := DestroyInputNodes_shape env j1 t s1
  refine ⟨b1 && b2, j2, s2, ?_, by rw [hg1, hf1], by rw [hg2, hf2]⟩
  unfold DisconnectAndDestroyInput
  rw [h1]
  simp [h2]

theorem MarkAllInputObjectsChanged_flags (i : UHoudiniInput) (b : Bool) :
    (MarkAllInputObjectsChanged i b).bHasChanged = i.bHasChanged
    ∧ (MarkAllInputObjectsChanged i b).bDataUploadNeeded = i.bDataUploadNeeded :=
  ⟨rfl, rfl⟩

theorem ChangeInputType_shape (env : HapiEnv) (i : UHoudiniInput) (bF : Bool)
    (s : Session) :
    ∃ b i1 s1, ChangeInputType env (some i) bF s = (b, some i1, s1)
      ∧ i1.bHasChanged = i.bHasChanged
      ∧ i1.bDataUploadNeeded = i.bDataUploadNeeded := by
  by_cases hk : i.pendingKill
  · exact ⟨false, i, s, by simp [ChangeInputType, hk], rfl, rfl⟩
  by_cases hc : i.HasInputTypeChanged = false ∧ bF = false
  · exact ⟨true, i, s, by simp [ChangeInputType, hk, hc], rfl, rfl⟩
  · obtain ⟨b1, j1, s1, h1, hf1, hf2⟩ :=
      DisconnectAndDestroyInput_shape env i i.PreviousInputType s
    refine ⟨true, MarkAllInputObjectsChanged j1 true, s1, ?_, by
        rw [(MarkAllInputObjectsChanged_flags j1 true).1, hf1], by
        rw [(MarkAllInputObjectsChanged_flags j1 true).2, hf2]⟩
    simp only [ChangeInputType, hk, hc]
    rw [h1]
    simp [hk, hc]

theorem UploadInputData_shape (env : HapiEnv) (i : UHoudiniInput) (s : Session) :
    ∃ i1, (UploadInputData env (some i) s).input = some i1
      ∧ i1.bHasChanged = i.bHasChanged := by
  by_cases hk : i.pendingKill
  · exact ⟨i, by simp [UploadInputData, hk], rfl⟩
  cases hG : GetHoudiniInputObjectArray i i.InputType
  · exact ⟨i, by simp [UploadInputData, hk, hG], rfl⟩
  · simp only [UploadInputData, hk, hG]
    split_ifs <;>
      first
        | exact ⟨_, rfl, (setArr_flags i i.InputType _).1⟩
        | exact ⟨_, rfl, rfl⟩

theorem UploadInputTransform_shape (env : HapiEnv) (i : UHoudiniInput) :
    ∃ i1, (UploadInputTransform env (some i)).input = some i1
      ∧ i1.bHasChanged = i.bHasChanged
      ∧ i1.bDataUploadNeeded = i.bDataUploadNeeded := by
  by_cases hk : i.pendingKill
  · exact ⟨i, by simp [UploadInputTransform, hk], rfl, rfl⟩
  cases hG : GetHoudiniInputObjectArray i i.InputType with
  | none => exact ⟨i, by simp [UploadInputTransform, hk, hG], rfl, rfl⟩
  | some objs =>
    exact ⟨setHoudiniInputObjectArray i i.InputType (uploadTransformLoop env i objs 0).1,
      by simp [UploadInputTransform, hk, hG],
      (setArr_flags i i.InputType _).1, (setArr_flags i i.InputType _).2⟩

theorem pciTypeChange_flags (env : HapiEnv) (p : UHoudiniInput × Session) :
    (pciTypeChange env p).1.bHasChanged = p.1.bHasChanged
    ∧ (pciTypeChange env p).1.bDataUploadNeeded = p.1.bDataUploadNeeded := by
  simp only [pciTypeChange]
  split_ifs with h
  · obtain ⟨b, i1, s1, heq, hf1, hf2⟩ := ChangeInputType_shape env p.1 false p.2
    rw [heq]
    exact ⟨hf1, hf2⟩
  · exact ⟨rfl, rfl⟩

theorem pciLandscape_flags (env : HapiEnv) (p : UHoudiniInput × Session) :
    (pciLandscape env p).1.bHasChanged = p.1.bHasChanged
    ∧ (pciLandscape env p).1.bDataUploadNeeded = p.1.bDataUploadNeeded := by
  simp only [pciLandscape]
  split_ifs with h
  · obtain ⟨b, i1, s1, heq, hf1, hf2⟩ :=
      DisconnectAndDestroyInput_shape env p.1 p.1.InputType p.2
    rw [heq]
    exact ⟨hf1, hf2⟩
  · exact ⟨rfl, rfl⟩

theorem pciDataUpload_props (env : HapiEnv) (p : UHoudiniInput × Session) :
    (pciDataUpload env p).1.bHasChanged = p.1.bHasChanged
    ∧ (∀ ok, (pciDataUpload env p).2.2 = some ok →
        (pciDataUpload env p).1.bDataUploadNeeded = !ok) := by
  simp only [pciDataUpload]
  split_ifs with h
  · obtain ⟨i1, heq, hf⟩ := UploadInputData_shape env p.1 p.2
    rw [heq]
    refine ⟨hf, ?_⟩
    intro ok hok
    simp only [Option.some.injEq] at hok
    rw [← hok]
  · refine ⟨rfl, ?_⟩
    intro ok hok
    simp at hok

theorem pciTransformUpload_flags (env : HapiEnv) (i : UHoudiniInput) :
    (pciTransformUpload env i).bHasChanged = i.bHasChanged
    ∧ (pciTransformUpload env i).bDataUploadNeeded = i.bDataUploadNeeded := by
  simp only [pciTransformUpload]
  split_ifs with h
  · obtain ⟨i1, heq, hf1, hf2⟩ := UploadInputTransform_shape env i
    rw [heq]
    exact ⟨hf1, hf2⟩
  · exact ⟨rfl, rfl⟩

theorem uploadChangedLoop_skip (env : HapiEnv) :
    ∀ (l : List (Option UHoudiniInput)) (sess : Session) (k : Nat) (i : UHoudiniInput),
      l.get? k = some (some i) → (i.pendingKill = true ∨ i.bHasChanged = false) →
      (uploadChangedLoop env l sess).1.get? k = some (some i)
  | [], _, k, _, hj, _ => by simp at hj
  | i? :: rest, sess, 0, i, hj, hcond => by
    simp only [List.get?_cons_zero, Option.some.injEq] at hj
    subst hj
    rcases hcond with h | h
    · simp [uploadChangedLoop, h]
    · by_cases hk : i.pendingKill <;> simp [uploadChangedLoop, hk, h]
  | i? :: rest, sess, Nat.succ k, i, hj, hcond => by
    simp only [List.get?_cons_succ] at hj
    rcases i? with _ | i0
    · simpa [uploadChangedLoop] using uploadChangedLoop_skip env rest sess k i hj hcond
    · by_cases hk0 : i0.pendingKill
      · simpa [uploadChangedLoop, hk0] using
          uploadChangedLoop_skip env rest sess k i hj hcond
      · by_cases hc0 : i0.bHasChanged = false
        · simpa [uploadChangedLoop, hk0, hc0] using
            uploadChangedLoop_skip env rest sess k i hj hcond
        · simpa [uploadChangedLoop, hk0, hc0] using
            uploadChangedLoop_skip env rest
              (processChangedInput env i0 sess).sess k i hj hcond

/-- An oracle in which every HapiCreateInputNodeFor* translator fails while
every other external call succeeds. -/
def failEnv : HapiEnv :=
  { sampleEnv with
      translate := fun _ o => ⟨false, o.InputNodeId, o.InputObjectNodeId, o.BlueprintStaticMeshes⟩,
      translateComp := fun _ c => ⟨false, c.InputNodeId, c.InputObjectNodeId⟩ }

/-- A changed static-mesh input object that was never uploaded. -/
def sampleObjChanged : UHoudiniInputObject :=
  { sampleObjKeep with bHasChanged := true, InputNodeId := -1, InputObjectNodeId := -1 }

/-- A changed geometry input whose data upload is pending. -/
def sampleInput3 : UHoudiniInput :=
  { sampleInput1 with
      bHasChanged := true,
      bDataUploadNeeded := true,
      CreatedDataNodeIds := [],
      objectArrays := { emptyArrays with geometry := [some sampleObjChanged] } }

/-- C6 counterexample, refuting the claim that the changed flags are cleared
only when every update step succeeded: on this concrete input the data upload
fails (the translator reports failure; the failure is recorded in the
data-upload-needed flag), yet because the final properties update succeeds —
line 715 assigns rather than and-accumulates its result into bSuccess — the
input's changed flag is cleared anyway. -/
theorem C6_changed_flag_cleared_despite_failure_counterexample :
    (processChangedInput failEnv sampleInput3 sampleSess).dataUploadOk = some false
    ∧ (processChangedInput failEnv sampleInput3 sampleSess).propsOk = true
    ∧ (processChangedInput failEnv sampleInput3 sampleSess).input.bHasChanged = false
    ∧ (processChangedInput failEnv sampleInput3 sampleSess).input.bDataUploadNeeded
        = true := by
  exact ⟨rfl, rfl, rfl, rfl⟩

/-- C6 (amended): inputs that are null, pending kill, or not marked changed
are skipped and left unmodified; for a changed input, after processing, the
needs-to-trigger-update flag is always cleared, the changed flag is cleared
exactly when the final input-properties update succeeded (regardless of
earlier upload failures, whose outcome is instead recorded in the
data-upload-needed flag). -/
theorem C6_upload_changed_inputs_amended (env : HapiEnv)
    (h : UHoudiniAssetComponent) (sess : Session) (hkill : h.pendingKill = false) :
    (∀ k i, h.Inputs.get? k = some (some i) →
      (i.pendingKill = true ∨ i.bHasChanged = false) →
      ∃ h2, (UploadChangedInputs env (some h) sess).2.1 = some h2
        ∧ h2.Inputs.get? k = some (some i))
    ∧ (∀ (i : UHoudiniInput) (s0 : Session), i.bHasChanged = true →
        (processChangedInput env i s0).input.bNeedsToTriggerUpdate = false
        ∧ (processChangedInput env i s0).input.bHasChanged
            = !(processChangedInput env i s0).propsOk
        ∧ (∀ ok, (processChangedInput env i s0).dataUploadOk = some ok →
            (processChangedInput env i s0).input.bDataUploadNeeded = !ok)) := by
  constructor
  · intro k i hki hcond
    refine ⟨{ h with Inputs := (uploadChangedLoop env h.Inputs sess).1 },
      by simp [UploadChangedInputs, hkill], ?_⟩
    exact uploadChangedLoop_skip env h.Inputs sess k i hki hcond
  · intro i s0 hch
    have hi4c : (pciTransformUpload env
        (pciDataUpload env (pciLandscape env (pciTypeChange env (i, s0)))).1).bHasChanged
        = i.bHasChanged := by
      rw [(pciTransformUpload_flags env _).1, (pciDataUpload_props env _).1,
        (pciLandscape_flags env _).1, (pciTypeChange_flags env _).1]
    have hi4d : ∀ ok,
        (pciDataUpload env (pciLandscape env (pciTypeChange env (i, s0)))).2.2 = some ok →
        (pciTransformUpload env
          (pciDataUpload env (pciLandscape env (pciTypeChange env (i, s0)))).1).bDataUploadNeeded
        = !ok := by
      intro ok hok
      rw [(pciTransformUpload_flags env _).2]
      exact (pciDataUpload_props env _).2 ok hok
    refine ⟨?_, ?_, ?_⟩
    · simp [processChangedInput]
    · simp only [processChangedInput]
      split_ifs with h1 h2 h3 <;>
        simp_all [MarkAllInputObjectsChanged]
    · intro ok hok
      simp only [processChangedInput] at hok ⊢
      split_ifs with h1 h2 h3 <;>
        simp_all [MarkAllInputObjectsChanged]

/-- A concrete asset component holding one unchanged input. -/
def sampleHAC : UHoudiniAssetComponent := ⟨false, 0, [some sampleInput1], none⟩

/-- Witness for C6 (amended): the unchanged input of the sample component is
skipped and left unmodified. -/
theorem C6_upload_changed_inputs_amended_witness :
    ∃ h2, (UploadChangedInputs sampleEnv (some sampleHAC) sampleSess).2.1 = some h2
      ∧ h2.Inputs.get? 0 = some (some sampleInput1) :=
  (C6_upload_changed_inputs_amended sampleEnv sampleHAC sampleSess rfl).1
    0 sampleInput1 rfl (Or.inr rfl)

/- ### BuildAllInputs (lines 111-301). -/

/-- UHoudiniParameter, restricted to the fields BuildAllInputs reads. -/
structure UHoudiniParameter where
  parmType : EHoudiniParameterType
  ParmId : Int
  Name : String
  Label : String
  Help : String
  pendingKill : Bool
deriving DecidableEq, Repr

/-- Modelled from the spec: NewObject of UHoudiniInput creates a fresh input
in its default state (invalid type, no recorded node ids, no flags set, able
to delete its nodes, empty object arrays) under the given name. -/
def newHoudiniInput (name : String) : UHoudiniInput where
  Name := name
  Label := name
  Help := ""
  InputType := EHoudiniInputType.Invalid
  PreviousInputType := EHoudiniInputType.Invalid
  AssetNodeId := -1
  InputNodeId := -1
  InputIndex := 0
  ParmId := -1
  bIsObjectPathParameter := false
  pendingKill := false
  bCanDeleteHoudiniNodes := true
  bHasChanged := false
  bNeedsToTriggerUpdate := false
  bDataUploadNeeded := false
  bTransformUploadNeeded := false
  bLandscapeExportTypeChanged := false
  CreatedDataNodeIds := []
  objectArrays := emptyArrays

/-- The append loop of BuildAllInputs (lines 150-172): while too few inputs,
append a fresh one named Input(idx+1) at the current end. -/
def appendNewInputs : Nat → List (Option UHoudiniInput) → List (Option UHoudiniInput)
  | 0, inputs => inputs
  | Nat.succ k, inputs =>
    appendNewInputs k
      (inputs ++ [some (newHoudiniInput ("Input" ++ toString (inputs.length + 1)))])

/-- The surplus-removal loop of BuildAllInputs (lines 173-188): the trailing
inputs beyond the needed count are disconnected and destroyed, walking from
the last index down (so the later entries are processed first). -/
def destroySurplus (env : HapiEnv) :
    List (Option UHoudiniInput) → Session → Session
  | [], s => s
  | i? :: rest, s =>
    let s1 := destroySurplus env rest s
    match i? with
    | none => s1
    | some i =>
      if i.pendingKill then s1
      else (DisconnectAndDestroyInput env (some i) i.InputType s1).2.2

/-- Modelled from the spec: UHoudiniInput::SetInputType records the previous
type and switches to the new one. -/
def SetInputType (i : UHoudiniInput) (t : EHoudiniInputType) : UHoudiniInput :=
  { i with PreviousInputType := i.InputType, InputType := t }

/-- The per-input body of the marking loop of BuildAllInputs (lines 196-298):
default name/label/help, asset node id, SOP or object-path marking, name and
label fetching, default-type initialization and the per-type Unreal-side
update. -/
def buildMarkInput (env : HapiEnv) (assetId : Int) (geoInCount : Nat)
    (inputParams : List UHoudiniParameter) (idx : Nat) (i : UHoudiniInput) :
    UHoudiniInput :=
  -- create the default Name/Label/Help and set the asset node id
  let name0 := "Input" ++ toString (idx + 1)
  let i0 := { i with AssetNodeId := assetId }
  -- bIsObjectPath := InputIdx >= geoInputCount
  let step : UHoudiniInput × String × String × String :=
    if idx < geoInCount then
      -- mark this input as a SOP input and fetch its name as label
      ({ i0 with bIsObjectPathParameter := false, InputIndex := Int.ofNat idx },
        name0, (env.getNodeInputName (Int.ofNat idx)).getD name0, "")
    else
      -- object path parameter input: pull name/label/help from the parameter
      match inputParams.get? (idx - geoInCount) with
      | some parm =>
        if parm.pendingKill = false then
          ({ i0 with bIsObjectPathParameter := true, ParmId := parm.ParmId },
            parm.Name, parm.Label, parm.Help)
        else
          ({ i0 with bIsObjectPathParameter := true, ParmId := -1 }, name0, name0, "")
      | none => ({ i0 with bIsObjectPathParameter := true, ParmId := -1 }, name0, name0, "")
  let i2 := step.1
  let nameF := step.2.1
  let labelF := step.2.2.1
  let helpF := if step.2.2.2 = "" then labelF ++ "(" ++ nameF ++ ")" else step.2.2.2
  let i3 := { i2 with Name := nameF, Label := labelF, Help := helpF }
  -- an invalid input type is initialized from the label, then the default
  -- asset preset of the HDA may adjust the type and object arrays
  let i4 :=
    if i3.InputType = EHoudiniInputType.Invalid then
      let i4a := SetInputType i3 (GetDefaultInputTypeFromLabel labelF)
      if i4a.ParmId < 0 then i4a
      else
        let eff := env.setDefaultAssetEffect i4a
        { i4a with InputType := eff.1, objectArrays := eff.2 }
    else i3
  -- update input objects data on the UE side (only curve inputs do anything)
  if i4.InputType = EHoudiniInputType.Curve then
    { i4 with objectArrays := env.updateInputCurvesEffect i4.objectArrays }
  else i4

/-- The marking loop of BuildAllInputs over the (repaired) inputs array. -/
def markLoop (env : HapiEnv) (assetId : Int) (geoInCount : Nat)
    (inputParams : List UHoudiniParameter) :
    Nat → List (Option UHoudiniInput) → List (Option UHoudiniInput)
  | _, [] => []
  | idx, none :: rest => none :: markLoop env assetId geoInCount inputParams (idx + 1) rest
  | idx, some i :: rest =>
    if i.pendingKill then
      some i :: markLoop env assetId geoInCount inputParams (idx + 1) rest
    else
      some (buildMarkInput env assetId geoInCount inputParams idx i)
        :: markLoop env assetId geoInCount inputParams (idx + 1) rest

/-- FHoudiniInputTranslator::BuildAllInputs (lines 111-301). -/
def BuildAllInputs (env : HapiEnv) (assetId : Int)
    (inputs : List (Option UHoudiniInput)) (parameters : List UHoudiniParameter)
    (sess : Session) : Bool × List (Option UHoudiniInput) × Session :=
  -- ensure the asset has a valid node id
  if assetId < 0 then (false, inputs, sess)
  else
    match env.getAssetInfoResult with
    | none => (false, inputs, sess)
    | some assetInfo =>
      -- also look for object path parameter inputs
      let inputParams := parameters.filter
        (fun p => p.parmType = EHoudiniParameterType.Input)
      let inputCount := assetInfo.geoInputCount + inputParams.length
      -- append new inputs as needed, or drop and destroy the surplus ones
      let step1 : List (Option UHoudiniInput) × Session :=
        if inputs.length < inputCount then
          (appendNewInputs (inputCount - inputs.length) inputs, sess)
        else if inputCount < inputs.length then
          (inputs.take inputCount, destroySurplus env (inputs.drop inputCount) sess)
        else (inputs, sess)
      -- check that the inputs in the array match the geo inputs
      (true, markLoop env assetId assetInfo.geoInputCount inputParams 0 step1.1, step1.2)

theorem appendNewInputs_length :
    ∀ (k : Nat) (l : List (Option UHoudiniInput)),
      (appendNewInputs k l).length = l.length + k
  | 0, _ => rfl
  | Nat.succ k, l => by
    rw [appendNewInputs, appendNewInputs_length k _]
    simp
    omega

theorem markLoop_length (env : HapiEnv) (a : Int) (g : Nat)
    (p : List UHoudiniParameter) :
    ∀ (idx : Nat) (l : List (Option UHoudiniInput)),
      (markLoop env a g p idx l).length = l.length
  | _, [] => rfl
  | idx, none :: rest => by
    simp [markLoop, markLoop_length env a g p (idx + 1) rest]
  | idx, some i :: rest => by
    by_cases hk : i.pendingKill <;>
      simp [markLoop, hk, markLoop_length env a g p (idx + 1) rest]

theorem markLoop_get (env : HapiEnv) (a : Int) (g : Nat)
    (p : List UHoudiniParameter) :
    ∀ (l : List (Option UHoudiniInput)) (idx k : Nat),
      (markLoop env a g p idx l).get? k
        = (l.get? k).map (fun o? =>
            match o? with
            | none => none
            | some i =>
              if i.pendingKill then some i
              else some (buildMarkInput env a g p (idx + k) i))
  | [], _, k => by simp [markLoop]
  | o? :: rest, idx, 0 => by
    rcases o? with _ | i
    · simp [markLoop]
    · by_cases hk : i.pendingKill <;> simp [markLoop, hk]
  | o? :: rest, idx, Nat.succ k => by
    have ih := markLoop_get env a g p rest (idx + 1) k
    have harith : idx + 1 + k = idx + Nat.succ k := by omega
    rw [harith] at ih
    rcases o? with _ | i
    · simpa [markLoop] using ih
    · by_cases hk : i.pendingKill <;> simpa [markLoop, hk] using ih

theorem buildMarkInput_props (env : HapiEnv) (assetId : Int) (geo : Nat)
    (params : List UHoudiniParameter) (idx : Nat) (i : UHoudiniInput) :
    (idx < geo →
      (buildMarkInput env assetId geo params idx i).bIsObjectPathParameter = false
      ∧ (buildMarkInput env assetId geo params idx i).InputIndex = Int.ofNat idx
      ∧ (buildMarkInput env assetId geo params idx i).Name = "Input" ++ toString (idx + 1))
    ∧ (geo ≤ idx →
      (buildMarkInput env assetId geo params idx i).bIsObjectPathParameter = true) := by
  constructor
  · intro hlt
    simp only [buildMarkInput, SetInputType]
    split_ifs <;> first | exact ⟨rfl, rfl, rfl⟩ | omega
  · intro hge
    have hnlt : ¬idx < geo := by omega
    cases hp : params.get? (idx - geo) with
    | none =>
      simp only [buildMarkInput, SetInputType, hp]
      split_ifs <;> first | rfl | omega
    | some parm =>
      simp only [buildMarkInput, SetInputType, hp]
      split_ifs <;> first | rfl | omega

/-- C5: BuildAllInputs returns false whenever the asset node id is negative;
when the asset info is available and the id nonnegative it succeeds and the
resulting inputs array holds exactly geoInputCount plus the number of
Input-type parameters (appending fresh InputN inputs or removing — after
disconnect and destroy — the trailing surplus); every surviving entry in the
first geoInputCount positions is marked as a SOP input at its index with the
default name Input(k+1), and every later entry as an object-path parameter
input. -/
theorem C5_build_all_inputs_size (env : HapiEnv) (assetId : Int)
    (inputs : List (Option UHoudiniInput)) (parameters : List UHoudiniParameter)
    (sess : Session) :
    (assetId < 0 → BuildAllInputs env assetId inputs parameters sess = (false, inputs, sess))
    ∧ (∀ info, env.getAssetInfoResult = some info → 0 ≤ assetId →
        (BuildAllInputs env assetId inputs parameters sess).1 = true
        ∧ (BuildAllInputs env assetId inputs parameters sess).2.1.length
            = info.geoInputCount
              + (parameters.filter
                  (fun p => p.parmType = EHoudiniParameterType.Input)).length
        ∧ (∀ k i2, (BuildAllInputs env assetId inputs parameters sess).2.1.get? k
              = some (some i2) → i2.pendingKill = false →
            (k < info.geoInputCount →
              i2.bIsObjectPathParameter = false
              ∧ i2.InputIndex = Int.ofNat k
              ∧ i2.Name = "Input" ++ toString (k + 1))
            ∧ (info.geoInputCount ≤ k → i2.bIsObjectPathParameter = true))) := by
  constructor
  · intro h
    simp [BuildAllInputs, h]
  · intro info hinfo hge
    have hneg : ¬assetId < 0 := by omega
    have hentry : ∀ (l : List (Option UHoudiniInput)) (k : Nat) (i2 : UHoudiniInput),
        (markLoop env assetId info.geoInputCount
          (parameters.filter (fun p => p.parmType = EHoudiniParameterType.Input)) 0 l).get? k
          = some (some i2) → i2.pendingKill = false →
        (k < info.geoInputCount →
          i2.bIsObjectPathParameter = false
          ∧ i2.InputIndex = Int.ofNat k
          ∧ i2.Name = "Input" ++ toString (k + 1))
        ∧ (info.geoInputCount ≤ k → i2.bIsObjectPathParameter = true) := by
      intro l k i2 hget hi2k
      rw [markLoop_get] at hget
      cases hl : l.get? k with
      | none => rw [hl] at hget; cases hget
      | some o? =>
        rw [hl] at hget
        cases o? with
        | none => simp at hget
        | some i =>
          by_cases hk : i.pendingKill
          · simp [hk] at hget
            subst hget
            simp_all
          · simp [hk] at hget
            subst hget
            have hprops := buildMarkInput_props env assetId info.geoInputCount
              (parameters.filter (fun p => p.parmType = EHoudiniParameterType.Input)) (0 + k) i
            rw [show (0 : Nat) + k = k by omega] at hprops
            exact hprops
    by_cases hlt : inputs.length
        < info.geoInputCount
          + (parameters.filter (fun p => p.parmType = EHoudiniParameterType.Input)).length
    · have hred : BuildAllInputs env assetId inputs parameters sess
          = (true, markLoop env assetId info.geoInputCount
              (parameters.filter (fun p => p.parmType = EHoudiniParameterType.Input)) 0
              (appendNewInputs
                (info.geoInputCount
                  + (parameters.filter
                      (fun p => p.parmType = EHoudiniParameterType.Input)).length
                  - inputs.length) inputs), sess) := by
        simp [BuildAllInputs, hneg, hinfo, hlt]
      rw [hred]
      refine ⟨rfl, ?_, ?_⟩
      · rw [markLoop_length, appendNewInputs_length]
        omega
      · intro k i2 hget hk2
        exact hentry _ k i2 hget hk2
    · by_cases hgt : info.geoInputCount
          + (parameters.filter (fun p => p.parmType = EHoudiniParameterType.Input)).length
          < inputs.length
      · have hred : BuildAllInputs env assetId inputs parameters sess
            = (true, markLoop env assetId info.geoInputCount
                (parameters.filter (fun p => p.parmType = EHoudiniParameterType.Input)) 0
                (inputs.take
                  (info.geoInputCount
                    + (parameters.filter
                        (fun p => p.parmType = EHoudiniParameterType.Input)).length)),
                destroySurplus env
                  (inputs.drop
                    (info.geoInputCount
                      + (parameters.filter
                          (fun p => p.parmType = EHoudiniParameterType.Input)).length)) sess) := by
          simp [BuildAllInputs, hneg, hinfo, hlt, hgt]
        rw [hred]
        refine ⟨rfl, ?_, ?_⟩
        · rw [markLoop_length, List.length_take]
          omega
        · intro k i2 hget hk2
          exact hentry _ k i2 hget hk2
      · have hred : BuildAllInputs env assetId inputs parameters sess
            = (true, markLoop env assetId info.geoInputCount
                (parameters.filter (fun p => p.parmType = EHoudiniParameterType.Input)) 0
                inputs, sess) := by
          simp [BuildAllInputs, hneg, hinfo, hlt, hgt]
        rw [hred]
        refine ⟨rfl, ?_, ?_⟩
        · rw [markLoop_length]
          omega
        · intro k i2 hget hk2
          exact hentry _ k i2 hget hk2

/-- Witness for C5: with one geo input and no parameters, building from an
empty array yields exactly one input. -/
theorem C5_build_all_inputs_size_witness :
    (BuildAllInputs sampleEnv 0 [] [] sampleSess).1 = true
    ∧ (BuildAllInputs sampleEnv 0 [] [] sampleSess).2.1.length = 1 := by
  have h := (C5_build_all_inputs_size sampleEnv 0 [] [] sampleSess).2 ⟨1⟩ rfl (by decide)
  exact ⟨h.1, by simpa using h.2.1⟩

/- ### UpdateWorldInputs (lines 2514-2549) and the move tracker
   (lines 77-93). -/

/-- FHoudiniMoveTracker (lines 77-93): a flag tracking whether an editor
object is currently being moved; the editor delegates set it on
begin-object-movement and clear it on end-object-movement and on camera
movement. -/
structure FHoudiniMoveTracker where
  IsObjectMoving : Bool
deriving DecidableEq, Repr

/-- FHoudiniInputTranslator::UpdateWorldInputs (lines 2514-2549): only ticks
in an editor world and never while an object is being dragged; otherwise it
runs UpdateWorldInput on every world input of the component. -/
def UpdateWorldInputs (env : HapiEnv) (tracker : FHoudiniMoveTracker)
    (hac : Option UHoudiniAssetComponent) :
    Bool × Option UHoudiniAssetComponent :=
  match hac with
  | none => (false, none)
  | some h =>
    if h.pendingKill then (false, some h)
    else
      -- only tick/cook when in Editor: prevents PIE or runtime cooks caused
      -- by inputs moving
      let inEditor :=
        match h.owner with
        | some actorOwner => actorOwner.world = some EWorldType.Editor
        | none => true
      if inEditor = false then (false, some h)
      -- stop outliner objects from causing recooks while dragged around
      else if tracker.IsObjectMoving then (false, some h)
      else
        (true, some { h with Inputs := h.Inputs.map (fun i? =>
          match i? with
          | none => none
          | some i =>
            if i.InputType = EHoudiniInputType.World then
              some (env.updateWorldInputEffect i)
            else some i) })

/-- C10: world-input synchronization runs inside the editor tick only —
UpdateWorldInputs returns false without updating anything whenever the owning
actor's world is not an editor world, or while an editor object is being
moved (the move tracker flag is set). -/
theorem C10_world_inputs_editor_gate (env : HapiEnv) (tracker : FHoudiniMoveTracker)
    (h : UHoudiniAssetComponent) :
    (∀ a, h.owner = some a → a.world ≠ some EWorldType.Editor →
      UpdateWorldInputs env tracker (some h) = (false, some h))
    ∧ (tracker.IsObjectMoving = true →
      UpdateWorldInputs env tracker (some h) = (false, some h)) := by
  constructor
  · intro a ha hw
    by_cases hk : h.pendingKill
    · simp [UpdateWorldInputs, hk]
    · simp [UpdateWorldInputs, hk, ha, hw]
  · intro hm
    by_cases hk : h.pendingKill
    · simp [UpdateWorldInputs, hk]
    · cases ho : h.owner with
      | none => simp [UpdateWorldInputs, hk, ho, hm]
      | some a =>
        by_cases hw : a.world = some EWorldType.Editor <;>
          simp [UpdateWorldInputs, hk, ho, hm, hw]

/-- Witness for C10: a component owned by an actor in a PIE world is not
updated. -/
theorem C10_world_inputs_editor_gate_witness :
    UpdateWorldInputs sampleEnv ⟨false⟩
      (some { sampleHAC with owner := some ⟨some EWorldType.PIE⟩ })
      = (false, some { sampleHAC with owner := some ⟨some EWorldType.PIE⟩ }) :=
  (C10_world_inputs_editor_gate sampleEnv ⟨false⟩
    { sampleHAC with owner := some ⟨some EWorldType.PIE⟩ }).1
    ⟨some EWorldType.PIE⟩ rfl (by decide)

end HoudiniEngine
